import Mathlib

/-!
Verification of the gomlx/go-xla specification against a shallow embedding of
the repository's source code.

The embedding covers:
* `pkg/pjrt/arena.go` — the FFI bump arena and its power-of-two pool;
* `pkg/installer/flock.go` — the installation file lock;
* `pkg/stablehlo/ops.go` and `pkg/stablehlo/constprop.go` — the StableHLO
  builder core: operation construction, the constant-shape extractors, and the
  `DynamicBroadcastInDim` / `DynamicReshape` rewrite policies.

Go machine integers are modelled as `Int` (Go `int`) or `Nat` (sizes/indices
that the source keeps nonnegative); Go's truncated integer division/modulus is
modelled by `Int.div` / `Int.mod` (see `goDiv` / `goMod`).  Fallible Go code
returning `(T, bool)` is modelled as `Option T`; code returning `(T, error)`
is modelled as `Except String T`.  Mutation of a `*Function` is modelled by
returning the updated `Function` value alongside the result.
-/

namespace GoXla

/-- Go truncated integer division (`a / b` on Go `int`), i.e. rounding toward
zero.  Lean's `/` on `Int` is Euclidean division, so we name Go's explicitly. -/
def goDiv (a b : Int) : Int := Int.tdiv a b

/-- Go integer remainder (`a % b` on Go `int`), the counterpart of `goDiv`. -/
def goMod (a b : Int) : Int := Int.tmod a b

/-- Product of a list of Go ints, as computed by the source's
`size := 1; for _, d := range dims { size *= d }` loops. -/
def prodInt (l : List Int) : Int := l.foldl (· * ·) 1

/-! ## Arena (`pkg/pjrt/arena.go`)

`arenaContainer` owns a fixed C-allocated byte region.  We model the region's
bytes as a function `mem : Nat → Nat` (byte index to byte value) and pointers
into the region as byte offsets from the base pointer (offset `0`).
`cSizeOf[T]()` / element counts are abstracted into a byte count argument, so
`arenaAlloc` below models both `arenaAlloc[T]` and `arenaAllocSlice[T]`. -/

/-- `arenaContainer` of `pkg/pjrt/arena.go` (fields `size`, `current`,
`poolIndex` and the backing buffer `data.buf`, modelled as `mem`).
The intrusive free-list `next` pointer is owned by `internal/pool` and is not
part of the allocation behaviour, so it is omitted. -/
structure Arena where
  size : Nat
  current : Nat
  poolIndex : Int
  mem : Nat → Nat

/-- `arenaAlignBytes = 8` of arena.go. -/
def arenaAlignBytes : Nat := 8

/-- `arenaAlloc` / `arenaAllocSlice` of arena.go, for an allocation of
`allocSize` bytes.  Returns the byte offset of the allocation (the Go code
returns `&a.data.buf[a.current]`, i.e. base pointer plus offset `a.current`)
and the updated arena; `none` models the out-of-memory panic.
After advancing `current` the code rounds it up to the next multiple of 8
(`a.current = (a.current + arenaAlignBytes - 1) &^ (arenaAlignBytes - 1)`). -/
def arenaAlloc (a : Arena) (allocSize : Nat) : Option (Nat × Arena) :=
  if a.size < a.current + allocSize then none
  else
    let ptr := a.current
    let cur1 := a.current + allocSize
    let cur2 := (cur1 + arenaAlignBytes - 1) / arenaAlignBytes * arenaAlignBytes
    some (ptr, { a with current := cur2 })

/-- `arenaContainer.Reset` of arena.go: zero the used byte prefix
(`C.memset(&buf[0], 0, min(size, current))`, only reached when `current > 0`,
which agrees with this formula also for `current = 0`) and reset `current`. -/
def arenaReset (a : Arena) : Arena :=
  { a with
    current := 0
    mem := fun i => if i < min a.size a.current then 0 else a.mem i }

/-- Run a sequence of arena allocations, collecting the returned regions as
`(offset, byte-size)` pairs.  This models a caller performing consecutive
`arenaAlloc`/`arenaAllocSlice` calls on the same arena. -/
def runAllocs (a : Arena) : List Nat → Option (List (Nat × Nat) × Arena)
  | [] => some ([], a)
  | sz :: rest =>
    match arenaAlloc a sz with
    | none => none
    | some (off, a') =>
      match runAllocs a' rest with
      | none => none
      | some (rs, a'') => some ((off, sz) :: rs, a'')

/-! ## Arena pool (`pkg/pjrt/arena.go`, `arenaPools`) -/

/-- `minPooledArenaSize = 2048` of arena.go. -/
def minPooledArenaSize : Nat := 2048

/-- `maxPooledArenaSize = 16 * 1024 * 1024` of arena.go. -/
def maxPooledArenaSize : Nat := 16 * 1024 * 1024

/-- `minShift` computed in `newArenaPools`:
`bits.TrailingZeros(2048) = 11`. -/
def minShift : Nat := 11

/-- `maxShift` computed in `newArenaPools`:
`bits.TrailingZeros(16*1024*1024) = 24`. -/
def maxShift : Nat := 24

/-- `numPools = maxShift - minShift + 1 = 14` of `newArenaPools`. -/
def numPools : Nat := maxShift - minShift + 1

/-- The `shift` computed by `arenaPools.Get`: clamp `targetSize` up to
`minPooledArenaSize`, then `shift := bits.Len(uint(targetSize - 1))`
(`bits.Len n` is `Nat.size n`), then clamp `shift` up to `minShift`. -/
def poolShift (targetSize : Nat) : Nat :=
  if Nat.size ((if targetSize ≤ minPooledArenaSize then minPooledArenaSize else targetSize) - 1)
      < minShift then minShift
  else Nat.size ((if targetSize ≤ minPooledArenaSize then minPooledArenaSize else targetSize) - 1)

/-- Capacity of the arena returned by `arenaPools.Get(targetSize)`:
if `shift > maxShift` the arena is allocated directly with `newArena(targetSize)`
(capacity `targetSize`, after the initial clamp); otherwise it comes from
pool `shift - minShift`, whose arenas are created with size
`1 << (poolIdx + minShift) = 2 ^ shift`. -/
def arenaPoolsGetCapacity (targetSize : Nat) : Nat :=
  if maxShift < poolShift targetSize then
    (if targetSize ≤ minPooledArenaSize then minPooledArenaSize else targetSize)
  else 2 ^ poolShift targetSize

/-- `arenaPools.Return` of arena.go: an arena whose `poolIndex` is out of the
pooled range (`poolIndex < 0 || poolIndex >= len(ap.pools)`) is freed
(modelled as `none`); a pooled arena is `Reset` and re-enqueued (`some`). -/
def arenaPoolsReturn (a : Arena) : Option Arena :=
  if a.poolIndex < 0 ∨ (numPools : Int) ≤ a.poolIndex then none
  else some (arenaReset a)

/-! ### Arena lemmas -/

lemma arenaAlloc_ok {a : Arena} {sz off : Nat} {a1 : Arena}
    (h : arenaAlloc a sz = some (off, a1)) :
    off = a.current ∧ a.current + sz ≤ a.size ∧ a1.size = a.size ∧
    a1.mem = a.mem ∧ a1.poolIndex = a.poolIndex ∧
    a.current + sz ≤ a1.current ∧ arenaAlignBytes ∣ a1.current := by
  unfold arenaAlloc at h
  split at h
  · exact absurd h (by simp)
  · next hle =>
    obtain ⟨rfl, rfl⟩ : a.current = off ∧
        ({ a with current := (a.current + sz + arenaAlignBytes - 1) /
            arenaAlignBytes * arenaAlignBytes } : Arena) = a1 := by
      simpa [Prod.ext_iff] using h
    refine ⟨rfl, by omega, rfl, rfl, rfl, ?_, ?_⟩
    · show a.current + sz ≤ (a.current + sz + arenaAlignBytes - 1) /
        arenaAlignBytes * arenaAlignBytes
      have hmod := Nat.div_add_mod (a.current + sz + arenaAlignBytes - 1) arenaAlignBytes
      have hlt : (a.current + sz + arenaAlignBytes - 1) % arenaAlignBytes < arenaAlignBytes :=
        Nat.mod_lt _ (by norm_num [arenaAlignBytes])
      simp only [arenaAlignBytes] at hmod hlt ⊢
      omega
    · show arenaAlignBytes ∣ (a.current + sz + arenaAlignBytes - 1) /
        arenaAlignBytes * arenaAlignBytes
      exact dvd_mul_left _ _

lemma runAllocs_spec : ∀ (szs : List Nat) (a : Arena) (regions : List (Nat × Nat)) (a' : Arena),
    runAllocs a szs = some (regions, a') →
    a'.size = a.size ∧ a'.mem = a.mem ∧ a'.poolIndex = a.poolIndex ∧
    a.current ≤ a'.current ∧
    (∀ r ∈ regions, a.current ≤ r.1 ∧ r.1 + r.2 ≤ a'.current ∧ r.1 + r.2 ≤ a.size) ∧
    (arenaAlignBytes ∣ a.current → ∀ r ∈ regions, arenaAlignBytes ∣ r.1) ∧
    List.Pairwise (fun r s => r.1 + r.2 ≤ s.1) regions := by
  intro szs
  induction szs with
  | nil =>
    intro a regions a' h
    obtain ⟨rfl, rfl⟩ : regions = [] ∧ a = a' := by
      simpa [runAllocs, Prod.ext_iff, eq_comm] using h
    simp
  | cons sz rest ih =>
    intro a regions a' h
    cases halloc : arenaAlloc a sz with
    | none => simp only [runAllocs, halloc] at h; exact absurd h (by simp)
    | some p =>
      obtain ⟨off, a1⟩ := p
      simp only [runAllocs, halloc] at h
      cases hrest : runAllocs a1 rest with
      | none => simp only [hrest] at h; exact absurd h (by simp)
      | some q =>
        obtain ⟨rs, a2⟩ := q
        simp only [hrest] at h
        obtain ⟨rfl, rfl⟩ : (off, sz) :: rs = regions ∧ a2 = a' := by
          simpa [Prod.ext_iff] using h
        obtain ⟨hoff, hfit, hsz1, hmem1, hpool1, hcur1, hdvd1⟩ := arenaAlloc_ok halloc
        obtain ⟨hsz2, hmem2, hpool2, hcur2, hreg2, hdvd2, hpw2⟩ := ih a1 rs a2 hrest
        subst hoff
        refine ⟨by rw [hsz2, hsz1], by rw [hmem2, hmem1], by rw [hpool2, hpool1],
          by omega, ?_, ?_, ?_⟩
        · intro r hr
          rcases List.mem_cons.mp hr with rfl | hr
          · exact ⟨le_refl _, by omega, by omega⟩
          · obtain ⟨h1, h2, h3⟩ := hreg2 r hr
            exact ⟨by omega, h2, by omega⟩
        · intro hd r hr
          rcases List.mem_cons.mp hr with rfl | hr
          · exact hd
          · exact hdvd2 hdvd1 r hr
        · refine List.Pairwise.cons ?_ hpw2
          intro r hr
          obtain ⟨h1, _, _⟩ := hreg2 r hr
          omega

/-- C8 — Invariant: after `Reset`, the first allocation returns the base
pointer (offset `0`); and any sequence of `arenaAlloc`/`arenaAllocSlice`
calls that does not exhaust capacity yields pairwise-disjoint regions whose
offsets are all multiples of `arenaAlignBytes = 8`. -/
theorem C8_arena_reset_base_and_disjoint_aligned :
    (∀ (a : Arena) (sz : Nat), sz ≤ a.size →
      (arenaAlloc (arenaReset a) sz).map Prod.fst = some 0) ∧
    (∀ (a : Arena) (szs : List Nat) (regions : List (Nat × Nat)) (a' : Arena),
      a.current = 0 → runAllocs a szs = some (regions, a') →
      List.Pairwise (fun r s => r.1 + r.2 ≤ s.1 ∨ s.1 + s.2 ≤ r.1) regions ∧
      ∀ r ∈ regions, r.1 % arenaAlignBytes = 0) := by
  constructor
  · intro a sz hsz
    have hcond : ¬ ((arenaReset a).size < (arenaReset a).current + sz) := by
      show ¬ (a.size < 0 + sz)
      omega
    unfold arenaAlloc
    rw [if_neg hcond]
    rfl
  · intro a szs regions a' hcur h
    obtain ⟨_, _, _, _, _, hdvd, hpw⟩ := runAllocs_spec szs a regions a' h
    constructor
    · exact hpw.imp (fun {r s} hle => Or.inl hle)
    · intro r hr
      obtain ⟨c, hc⟩ := hdvd (hcur ▸ dvd_zero _) r hr
      simp [hc, arenaAlignBytes, Nat.mul_mod_right]

/-- Witness for C8 at a concrete arena: a 16-byte arena reset and allocated,
and a 32-byte arena receiving allocations of 3 and 5 bytes at offsets 0 and 8. -/
theorem C8_witness :
    ((arenaAlloc (arenaReset ⟨16, 3, -1, fun _ => 0⟩) 8).map Prod.fst = some 0) ∧
    (List.Pairwise (fun r s => r.1 + r.2 ≤ s.1 ∨ s.1 + s.2 ≤ r.1)
        [((0 : Nat), (3 : Nat)), (8, 5)] ∧
      ∀ r ∈ [((0 : Nat), (3 : Nat)), (8, 5)], r.1 % arenaAlignBytes = 0) :=
  ⟨C8_arena_reset_base_and_disjoint_aligned.1 ⟨16, 3, -1, fun _ => 0⟩ 8 (by norm_num),
   C8_arena_reset_base_and_disjoint_aligned.2 ⟨32, 0, 0, fun _ => 0⟩ [3, 5] _
     ⟨32, 16, 0, fun _ => 0⟩ rfl rfl⟩

/-- C9 — Pool contract: for `s` in the pooled range the returned arena's
capacity is the smallest supported power of two at least `s` (supported
exponents are `minShift = 11` through `maxShift = 24`, i.e. 2 KiB to 16 MiB);
larger sizes are allocated directly with capacity exactly `s`, and such
direct arenas (`poolIndex = -1`) are freed on `Return` rather than pooled;
and a re-enqueued arena has its whole used prefix zeroed, so every byte of
every region handed out since the last reset reads as `0` no matter what was
written into the arena's memory in between. -/
theorem C9_pool_capacity_and_zeroing :
    (∀ s : Nat,
      (s ≤ maxPooledArenaSize →
        arenaPoolsGetCapacity s = 2 ^ poolShift s ∧
        minShift ≤ poolShift s ∧ poolShift s ≤ maxShift ∧
        s ≤ 2 ^ poolShift s ∧
        (∀ k, minShift ≤ k → k < poolShift s → 2 ^ k < s)) ∧
      (maxPooledArenaSize < s → arenaPoolsGetCapacity s = s)) ∧
    (∀ a : Arena, a.poolIndex < 0 → arenaPoolsReturn a = none) ∧
    (∀ (a : Arena) (szs : List Nat) (regions : List (Nat × Nat)) (a' : Arena)
        (mem' : Nat → Nat) (a'' : Arena),
      a.current = 0 → runAllocs a szs = some (regions, a') →
      arenaPoolsReturn { a' with mem := mem' } = some a'' →
      ∀ r ∈ regions, ∀ j, j < r.2 → a''.mem (r.1 + j) = 0) := by
  refine ⟨?_, ?_, ?_⟩
  · intro s
    constructor
    · intro hs
      by_cases hsmall : s ≤ minPooledArenaSize
      · have hts : (if s ≤ minPooledArenaSize then minPooledArenaSize else s) =
            minPooledArenaSize := if_pos hsmall
        have hshift : poolShift s = 11 := by
          have h1 : Nat.size (minPooledArenaSize - 1) ≤ 11 :=
            Nat.size_le.mpr (by norm_num [minPooledArenaSize])
          have h2 : 10 < Nat.size (minPooledArenaSize - 1) :=
            Nat.lt_size.mpr (by norm_num [minPooledArenaSize])
          have h3 : Nat.size (minPooledArenaSize - 1) = 11 := by omega
          unfold poolShift
          rw [hts, h3]
          norm_num [minShift]
        refine ⟨?_, ?_, ?_, ?_, ?_⟩
        · unfold arenaPoolsGetCapacity
          rw [hts, hshift]
          norm_num [maxShift]
        · rw [hshift]; norm_num [minShift]
        · rw [hshift]; norm_num [maxShift]
        · rw [hshift]
          calc s ≤ minPooledArenaSize := hsmall
            _ ≤ 2 ^ 11 := by norm_num [minPooledArenaSize]
        · intro k hk hklt
          rw [hshift] at hklt
          exact absurd hklt (by simp only [minShift] at hk; omega)
      · push_neg at hsmall
        have hts : (if s ≤ minPooledArenaSize then minPooledArenaSize else s) = s :=
          if_neg (by omega)
        have hbig : 2 ^ minShift ≤ s - 1 := by
          simp only [minShift]
          simp only [minPooledArenaSize] at hsmall
          omega
        have hsize_gt : minShift < Nat.size (s - 1) := Nat.lt_size.mpr hbig
        have hshift : poolShift s = Nat.size (s - 1) := by
          unfold poolShift
          rw [hts, if_neg (by omega)]
        have hsize_le : Nat.size (s - 1) ≤ maxShift := by
          apply Nat.size_le.mpr
          simp only [maxShift]
          simp only [maxPooledArenaSize] at hs
          omega
        refine ⟨?_, ?_, ?_, ?_, ?_⟩
        · unfold arenaPoolsGetCapacity
          rw [hts]
          rw [if_neg (by rw [hshift]; omega)]
        · rw [hshift]; omega
        · rw [hshift]; exact hsize_le
        · rw [hshift]
          have := Nat.lt_size_self (s - 1)
          omega
        · intro k hk hklt
          rw [hshift] at hklt
          have : 2 ^ k ≤ s - 1 := Nat.lt_size.mp hklt
          simp only [minPooledArenaSize] at hsmall
          omega
    · intro hs
      have hsmall : ¬ s ≤ minPooledArenaSize := by
        simp only [minPooledArenaSize]
        simp only [maxPooledArenaSize] at hs
        omega
      have hts : (if s ≤ minPooledArenaSize then minPooledArenaSize else s) = s :=
        if_neg hsmall
      have hbig : 2 ^ maxShift ≤ s - 1 := by
        simp only [maxShift]
        simp only [maxPooledArenaSize] at hs
        omega
      have hsize_gt : maxShift < Nat.size (s - 1) := Nat.lt_size.mpr hbig
      have hshift : poolShift s = Nat.size (s - 1) := by
        unfold poolShift
        rw [hts, if_neg (by simp only [minShift, maxShift] at *; omega)]
      unfold arenaPoolsGetCapacity
      rw [hts, if_pos (by rw [hshift]; omega)]
  · intro a h
    unfold arenaPoolsReturn
    rw [if_pos (Or.inl h)]
  · intro a szs regions a' mem' a'' hcur hrun hret r hr j hj
    obtain ⟨hsz, _, _, _, hreg, _, _⟩ := runAllocs_spec szs a regions a' hrun
    obtain ⟨hr1, hr2, hr3⟩ := hreg r hr
    unfold arenaPoolsReturn at hret
    split at hret
    · exact absurd hret (by simp)
    · have ha'' : a'' = arenaReset { a' with mem := mem' } := by
        simpa [eq_comm] using hret
      subst ha''
      show (if r.1 + j < min a'.size a'.current then 0 else mem' (r.1 + j)) = 0
      rw [if_pos (by omega)]

/-- Witness for C9 at concrete inputs: `Get(3000)` yields capacity `4096 = 2^12`,
a direct arena is freed, and a returned pooled arena reads `0` on an allocated
byte that had been overwritten. -/
theorem C9_witness :
    (3000 ≤ maxPooledArenaSize →
      arenaPoolsGetCapacity 3000 = 2 ^ poolShift 3000 ∧
      minShift ≤ poolShift 3000 ∧ poolShift 3000 ≤ maxShift ∧
      3000 ≤ 2 ^ poolShift 3000 ∧
      (∀ k, minShift ≤ k → k < poolShift 3000 → 2 ^ k < 3000)) ∧
    arenaPoolsReturn ⟨17000000, 0, -1, fun _ => 0⟩ = none ∧
    ∀ r ∈ [((0 : Nat), (3 : Nat))], ∀ j, j < r.2 →
      (arenaReset ⟨2048, 8, 0, fun _ => 7⟩).mem (r.1 + j) = 0 :=
  ⟨(C9_pool_capacity_and_zeroing.1 3000).1,
   C9_pool_capacity_and_zeroing.2.1 ⟨17000000, 0, -1, fun _ => 0⟩ (by norm_num),
   C9_pool_capacity_and_zeroing.2.2 ⟨2048, 0, 0, fun _ => 7⟩ [3] _
     ⟨2048, 8, 0, fun _ => 7⟩ (fun _ => 7) _ rfl rfl rfl⟩

/-! ## Installation file lock (`pkg/installer/flock.go`)

`checkInstallOrFileLock` first stats the install file (modelled by the
`installFileExists` flag, the result of `os.Stat` after tilde expansion);
when the file exists it reports "installed" without touching any lock.
Otherwise it creates the lock `<installFile>.lock` and loops:
`TryLock`, and on failure `select` between a timeout channel created at entry
(`time.After(InstallationFileLockTimeout)`) and a retry timer
(`time.After(RetryLockPeriod)`).  The n-th `TryLock` attempt therefore happens
at time `n * RetryLockPeriod`, and the timeout branch is taken after the
failed attempt `n` whenever `InstallationFileLockTimeout ≤ (n+1) *
RetryLockPeriod`.  The outcome of the n-th `flock.TryLock` call is abstracted
as `tryLock n`; `fuel` is a modelling bound on loop iterations (301 suffices
for the default constants). -/

/-- `InstallationFileLockTimeout = 5 * time.Minute`, in milliseconds. -/
def InstallationFileLockTimeout : Nat := 5 * 60 * 1000

/-- `RetryLockPeriod = 1000 * time.Millisecond`, in milliseconds. -/
def RetryLockPeriod : Nat := 1000

/-- The wait between the n-th failed `TryLock` and the next attempt: the loop
always waits `time.After(RetryLockPeriod)`, i.e. a constant period that does
not depend on the attempt number. -/
def retryWaitMs (_n : Nat) : Nat := RetryLockPeriod

/-- Result of `checkInstallOrFileLock`: already installed (no lock taken),
lock acquired on the given path at the given attempt number, or the timeout
error. -/
inductive FlockResult where
  | installed
  | locked (lockPath : String) (attempt : Nat)
  | timeoutErr
deriving DecidableEq, Repr

/-- The `for { TryLock; select { timeout; retry } }` loop of
`checkInstallOrFileLock`. -/
def tryLockLoop (lockPath : String) (tryLock : Nat → Bool) : Nat → Nat → FlockResult
  | 0, _ => FlockResult.timeoutErr
  | fuel + 1, n =>
    if tryLock n then FlockResult.locked lockPath n
    else if InstallationFileLockTimeout ≤ (n + 1) * RetryLockPeriod then
      FlockResult.timeoutErr
    else tryLockLoop lockPath tryLock fuel (n + 1)

/-- `checkInstallOrFileLock` of flock.go.  `installFileExists` abstracts the
`os.Stat(installFile)` result (tilde expansion and `MkdirAll` are path/IO
plumbing with no further effect on the contract). -/
def checkInstallOrFileLock (installFile : String) (installFileExists : Bool)
    (tryLock : Nat → Bool) : FlockResult :=
  if installFileExists then FlockResult.installed
  else tryLockLoop (installFile ++ ".lock") tryLock
    (InstallationFileLockTimeout / RetryLockPeriod + 1) 0

/-- C5 (counterexample) — The claim calls the poll "exponential" with default
period 1000 ms.  The code waits `time.After(RetryLockPeriod)` on every
iteration: the second wait equals the first wait (both 1000 ms), whereas an
exponential (doubling) poll starting at 1000 ms would wait 2000 ms the second
time. -/
theorem C5_counterexample :
    retryWaitMs 1 = retryWaitMs 0 ∧ retryWaitMs 0 = 1000 ∧
    retryWaitMs 1 ≠ 2 * retryWaitMs 0 := by
  refine ⟨rfl, rfl, ?_⟩
  decide

/-- C5 (amended) — `checkInstallOrFileLock` stats the target first and reports
installed without acquiring any lock when the file exists; otherwise it polls
the file lock `<target>.lock` at a constant period of 1000 ms (not an
exponential backoff), locking at the first successful attempt, and returns a
timeout error once the bounded default timeout of 5 minutes elapses (after
300 failed attempts with the default constants). -/
theorem C5_amended :
    (∀ (installFile : String) (tryLock : Nat → Bool),
      checkInstallOrFileLock installFile true tryLock = FlockResult.installed) ∧
    (∀ installFile : String,
      checkInstallOrFileLock installFile false (fun _ => true) =
        FlockResult.locked (installFile ++ ".lock") 0) ∧
    (∀ installFile : String,
      checkInstallOrFileLock installFile false (fun _ => false) =
        FlockResult.timeoutErr) ∧
    (∀ n, retryWaitMs n = 1000) ∧
    InstallationFileLockTimeout = 5 * 60 * 1000 := by
  refine ⟨fun _ _ => rfl, fun _ => rfl, fun installFile => ?_, fun _ => rfl, rfl⟩
  have key : ∀ (fuel n : Nat), InstallationFileLockTimeout ≤ (n + fuel) * RetryLockPeriod →
      tryLockLoop (installFile ++ ".lock") (fun _ => false) fuel n = FlockResult.timeoutErr := by
    intro fuel
    induction fuel with
    | zero => intro n _; rfl
    | succ f ih =>
      intro n hn
      rw [tryLockLoop]
      split
      · next hfalse => exact absurd hfalse (by simp)
      · split
        · rfl
        · next hlt =>
          apply ih
          simp only [InstallationFileLockTimeout, RetryLockPeriod] at hn hlt ⊢
          omega
  have hstep : checkInstallOrFileLock installFile false (fun _ => false) =
      tryLockLoop (installFile ++ ".lock") (fun _ => false)
        (InstallationFileLockTimeout / RetryLockPeriod + 1) 0 := by
    simp [checkInstallOrFileLock]
  rw [hstep]
  apply key
  simp only [InstallationFileLockTimeout, RetryLockPeriod]
  omega

/-- Witness for C5's amended theorem at a concrete install path. -/
theorem C5_witness :
    checkInstallOrFileLock "p" true (fun _ => false) = FlockResult.installed ∧
    checkInstallOrFileLock "p" false (fun _ => true) =
      FlockResult.locked "p.lock" 0 ∧
    checkInstallOrFileLock "p" false (fun _ => false) = FlockResult.timeoutErr :=
  ⟨C5_amended.1 "p" (fun _ => false), C5_amended.2.1 "p", C5_amended.2.2.1 "p"⟩

/-! ## StableHLO builder core (`pkg/stablehlo`)

Data model for `Value`, `Statement` and `Function`
(`pkg/stablehlo` — `Value` is in src; the `Statement`/`Function` struct
declarations live in a file of this repository outside `src/`, and are
modelled from the spec (§3) and their uses in `ops.go`/`constprop.go`).
Go pointer identity of `*Value` is modelled by a unique numeric `id` minted
from the owning function's counter; `value.fn` is modelled by the owning
function's `id` (`fnId`).  Attribute values (`map[string]any`) are modelled
by the tagged union `AttrVal`; a `tensorLiteral` attribute carries the result
of decoding it as a list of Go ints (`none` when the literal is not decodable
as integers), which abstracts `extractIntegersFromTensorLiteral` of ops.go. -/

/-- Element types (`pkg/types/dtypes`): only the integer/float distinction is
relevant to the claims, a few representative dtypes are enough. -/
inductive DType where
  | i32
  | i64
  | f32
  | f64
  | boolT
  | otherT
deriving DecidableEq, Repr

/-- `DType.IsInt` of the dtypes package. -/
def DType.IsInt : DType → Bool
  | .i32 | .i64 => true
  | _ => false

/-- `shapes.DimUnknown`.  The constant's declaration is outside `src/`; its
value `-1` is evidenced by ops.go's `tryExtractConcatenatedShapePartial`
appending `-1` exactly where constprop.go's twin appends `shapes.DimUnknown`. -/
def DimUnknown : Int := -1

/-- `shapes.Shape` (array shapes; tuple shapes and quantization are not
touched by the claims): dtype, dimensions (`DimUnknown`/negative sentinels
for dynamic), optional per-dimension bounds (empty list = Go `nil`). -/
structure Shape where
  dtype : DType
  Dimensions : List Int
  DimensionBounds : List Int
deriving DecidableEq, Repr

/-- `Shape.Rank()`: number of dimensions. -/
def Shape.Rank (s : Shape) : Nat := s.Dimensions.length

/-- `Shape.Size()`.  Modelled from the spec: the product of the dimensions
(§3 "Size is the product of known dimensions"); the Go implementation is
outside `src/`.  On the fully static shapes relevant to the claims this is
the product of all dimensions. -/
def Shape.Size (s : Shape) : Int := prodInt s.Dimensions

/-- `Shape.Clone()`: Lean shapes are values, so cloning is the identity. -/
def Shape.Clone (s : Shape) : Shape := s

/-- `stablehlo.Value` (src `unnamed` values file): owning function (modelled
by its id), identity (modelled by a minted id standing for the Go pointer),
and shape.  The textual name and the defining-statement back-reference do not
affect the claims and are omitted. -/
structure Value where
  id : Nat
  fnId : Nat
  shape : Shape
deriving DecidableEq, Repr

/-- Attribute values: the tagged union behind `map[string]any` attributes.
`int` stands for Go `int64`/`int` attributes, `str` for `literalStr`/raw
strings, `intList` for slice-valued attributes, `tensorLit` for a
`tensorLiteral` together with its integer decoding. -/
inductive AttrVal where
  | int (i : Int)
  | boolv (b : Bool)
  | intList (l : List Int)
  | tensorLit (ints : Option (List Int))
  | str (s : String)
  | otherA
deriving DecidableEq, Repr

/-- The opcodes (`internal/optypes`) reachable from the claims; every other
opcode behaves like `OtherOp` in the functions modelled here. -/
inductive OpType where
  | Constant
  | Concatenate
  | Reshape
  | Convert
  | GetDimensionSize
  | Gather
  | Slice
  | BroadcastInDim
  | DynamicBroadcastInDim
  | DynamicReshape
  | Multiply
  | Divide
  | Add
  | Select
  | Compare
  | While
  | OtherOp
deriving DecidableEq, Repr

/-- `stablehlo.Statement`: opcode, ordered inputs, ordered outputs, attribute
map (modelled as an association list). -/
structure Statement where
  OpType : OpType
  Inputs : List Value
  Outputs : List Value
  Attributes : List (String × AttrVal)
deriving DecidableEq, Repr

/-- `stmt.Attributes[key]` lookup. -/
def lookupAttr (stmt : Statement) (key : String) : Option AttrVal :=
  (stmt.Attributes.find? (fun kv => kv.1 == key)).map (·.2)

/-- `stablehlo.Function`: id (pointer identity), name, parent (for nested
closures), the `Returned` flag, the statement list, and the counter used to
mint value identities (Go mints fresh `*Value` pointers; we mint fresh ids). -/
structure Function where
  id : Nat
  Name : String
  Parent : Option Nat
  Returned : Bool
  Statements : List Statement
  nextId : Nat
deriving DecidableEq, Repr

/-- `Function.newValue` + the statement construction of `Function.addOp`
(ops.go lines 19-33): mint a fresh output value, append the statement, return
the updated function and the statement's single output.  Attributes are the
ones the Go caller assigns to the statement right after `addOp` returns. -/
def Function.addOp (fn : Function) (op : OpType) (outputShape : Shape)
    (inputs : List Value) (attrs : List (String × AttrVal)) : Function × Value :=
  let v : Value := ⟨fn.nextId, fn.id, outputShape⟩
  let stmt : Statement := ⟨op, inputs, [v], attrs⟩
  ({ fn with Statements := fn.Statements ++ [stmt], nextId := fn.nextId + 1 }, v)

/-- `Function.binaryOp` (ops.go lines 57-72).  `infer` abstracts
`shapeinference.BinaryOp`, whose implementation is outside `src/`
(`none` = inference error). -/
def Function.binaryOp (fn : Function)
    (infer : OpType → Shape → Shape → Option Shape)
    (op : OpType) (lhs rhs : Value) : Function × Except String Value :=
  if fn.Returned then
    (fn, Except.error "cannot add operation after returning")
  else if lhs.fnId ≠ fn.id ∨ rhs.fnId ≠ fn.id then
    (fn, Except.error "operands are not part of the function")
  else
    match infer op lhs.shape rhs.shape with
    | none => (fn, Except.error "shape inference failed")
    | some outputShape =>
      let r := fn.addOp op outputShape [lhs, rhs] []
      (r.1, Except.ok r.2)

/-- Whether an `Except` result is a success. -/
def exceptIsOk : Except String Value → Bool
  | Except.ok _ => true
  | Except.error _ => false

/-- The success value of an `Except` result, if any. -/
def okValue : Except String Value → Option Value
  | Except.ok v => some v
  | Except.error _ => none

/-- Find a function by id in a builder's function list. -/
def findFunction (fns : List Function) (fid : Nat) : Option Function :=
  fns.find? (fun f => f.id == fid)

/-- Walk the `Parent` chain. Modelled from the spec: §3 "Nested closures form
a tree rooted at `@main` … a closure may reference values from any strict
ancestor"; the `Parent` field is evidenced by `While`'s
`condFn.Parent != fn` check in ops.go. -/
def isStrictAncestorAux (fns : List Function) : Nat → Nat → Nat → Bool
  | 0, _, _ => false
  | fuel + 1, descId, ancId =>
    match findFunction fns descId with
    | some f =>
      match f.Parent with
      | some p => p == ancId || isStrictAncestorAux fns fuel p ancId
      | none => false
    | none => false

/-- `ancId` is a strict ancestor of `descId` in the closure tree `fns`. -/
def isStrictAncestor (fns : List Function) (ancId descId : Nat) : Bool :=
  isStrictAncestorAux fns fns.length descId ancId

/-- Whether an `Except` result of any payload is a success. -/
def exceptOk {α : Type} : Except String α → Bool
  | Except.ok _ => true
  | Except.error _ => false

/-- `Function.addMultiOp` (ops.go lines 36-56): mint one fresh output value
per output shape, append the statement, return the updated function and the
outputs.  Attributes are the ones the Go caller assigns right after. -/
def Function.addMultiOp (fn : Function) (op : OpType) (outputShapes : List Shape)
    (inputs : List Value) (attrs : List (String × AttrVal)) :
    Function × List Value :=
  let outputs := (List.range outputShapes.length).zipWith
      (fun i s => (⟨fn.nextId + i, fn.id, s⟩ : Value)) outputShapes
  let stmt : Statement := ⟨op, inputs, outputs, attrs⟩
  ({ fn with
      Statements := fn.Statements ++ [stmt]
      nextId := fn.nextId + outputShapes.length }, outputs)

/-- `Concatenate` (ops.go lines 1437-1471).  `inferC` abstracts
`shapeinference.Concatenate` and `adjust` abstracts
`shapeinference.AdjustAxisToRank`, both outside `src/` (`none` = error).
The owning function is the first operand's (Go dereferences `operands[0].fn`;
here the pointer is resolved through the builder's function list `fns`).
On success the returned `Function` is the owning function with the appended
statement; an error leaves every function untouched, as in Go. -/
def Concatenate (fns : List Function)
    (inferC : List Shape → Int → Option Shape)
    (adjust : Int → Nat → Option Int)
    (axis : Int) (operands : List Value) :
    Except String (Function × Value) :=
  match operands with
  | [] => Except.error "Concatenate requires at least one operand"
  | o0 :: _ =>
    match findFunction fns o0.fnId with
    | none => Except.error "operand function is not part of the builder"
    | some fn =>
      if fn.Returned then
        Except.error "cannot add operation after returning"
      else if operands.any (fun o => o.fnId != fn.id) then
        Except.error "operand is from different function"
      else
        match inferC (operands.map Value.shape) axis with
        | none => Except.error "shape inference failed"
        | some outputShape =>
          match adjust axis o0.shape.Rank with
          | none => Except.error "Concatenate axis for operands"
          | some adjustedAxis =>
            Except.ok (fn.addOp OpType.Concatenate outputShape operands
              [("dimension", AttrVal.int adjustedAxis)])

/-- `While` (ops.go lines 3226-3273).  `inferW` abstracts
`shapeinference.While`, which is outside `src/`: Go passes it the initial
states' shapes and the shapes of `condFn`/`bodyFn`'s inputs and outputs, so
every argument is a function of `(condFn, bodyFn, state shapes)` and the call
is abstracted as `inferW condFn bodyFn stateShapes` (`none` = error).  The
owning function is `initialStates[0]`'s, resolved through the builder's
function list `fns`.  `AddFunctionParameter` records the two region closures
on the statement; they are modelled as attributes carrying the closures'
identities, "cond" then "body" in the order Go adds them. -/
def While (fns : List Function)
    (inferW : Function → Function → List Shape → Option (List Shape))
    (condFn bodyFn : Function) (initialStates : List Value) :
    Except String (Function × List Value) :=
  match initialStates with
  | [] => Except.error "While requires at least one initial state value"
  | s0 :: _ =>
    match findFunction fns s0.fnId with
    | none => Except.error "operand function is not part of the builder"
    | some fn =>
      if fn.Returned then
        Except.error "cannot add operation after returning"
      else if initialStates.any (fun s => s.fnId != fn.id) then
        Except.error "initial state is from different function"
      else if condFn.Parent ≠ some fn.id then
        Except.error "condFn is not a StableHLO closure of the function"
      else if bodyFn.Parent ≠ some fn.id then
        Except.error "bodyFn is not a StableHLO closure of the function"
      else
        match inferW condFn bodyFn (initialStates.map Value.shape) with
        | none => Except.error "shape inference failed"
        | some outputsShapes =>
          Except.ok (fn.addMultiOp OpType.While outputsShapes initialStates
            [("cond", AttrVal.int condFn.id), ("body", AttrVal.int bodyFn.id)])

/-! ## Constant-shape extraction, ops.go family
(`TryExtractConstantShape` and its `tryExtract…` helpers, ops.go lines
91-798).  Each helper takes the recursive extraction as the function argument
`extract`; the top-level function ties the knot with a fuel parameter (the Go
recursion terminates because statement inputs are always produced by earlier
statements; fuel `fn.Statements.length + 1` therefore reproduces the Go
behaviour, and the callers below use exactly that). -/

/-- A placeholder `Value` used to model Go's panicking index `Outputs[0]`
on an (ill-formed) statement without outputs. -/
def defaultValue : Value := ⟨0, 0, ⟨DType.otherT, [], []⟩⟩

/-- `strings.Contains(s, pat)`. -/
def containsSub (s pat : String) : Bool := (s.splitOn pat).length != 1

/-- `fmt.Sprintf("%v", attr)` as far as the comparison-direction parsing is
concerned (both extractor families format the attribute the same way, and
only the result of the substring tests below matters). -/
def attrToString : AttrVal → String
  | AttrVal.str s => s
  | AttrVal.int i => toString i
  | AttrVal.boolv b => toString b
  | AttrVal.intList _ => ""
  | AttrVal.tensorLit _ => ""
  | AttrVal.otherA => ""

/-- The `compare` closure of `tryExtractCompareConstant` /
`extractCompareConstant`: test the direction string for EQ/NE/LT/LE/GT/GE via
`strings.Contains` and return 1/0. -/
def compareDirApply (dirStr : String) (lhs rhs : Int) : Int :=
  if containsSub dirStr "EQ" then (if lhs = rhs then 1 else 0)
  else if containsSub dirStr "NE" then (if lhs ≠ rhs then 1 else 0)
  else if containsSub dirStr "LT" then (if lhs < rhs then 1 else 0)
  else if containsSub dirStr "LE" then (if lhs ≤ rhs then 1 else 0)
  else if containsSub dirStr "GT" then (if rhs < lhs then 1 else 0)
  else if containsSub dirStr "GE" then (if rhs ≤ lhs then 1 else 0)
  else 0

/-- `parseArrayAttr` (ops.go lines 765-798): parse `"array<i64: 3, 4>"`-style
attribute strings.  Everything after the first colon is taken, trailing `>`
trimmed, split on commas, empty parts skipped, numbers parsed
(`String.toInt?` models `strconv.Atoi`). -/
def parseArrayAttr (s : String) : Option (List Int) :=
  match s.splitOn ":" with
  | [] => none
  | [_] => none
  | _ :: rest =>
    let valuesStr := ((String.intercalate ":" rest).dropRightWhile
      (fun c => c == '>')).trim
    let parts := valuesStr.splitOn ","
    parts.foldl
      (fun acc part =>
        match acc with
        | none => none
        | some l =>
          let p := part.trim
          if p == "" then some l
          else
            match p.toInt? with
            | some v => some (l ++ [v])
            | none => none)
      (some [])

/-- `extractIntSliceFromAttribute` (ops.go lines 737-763): a `literalStr` or
plain string is parsed with `parseArrayAttr`; a Go slice/array of integers
(the reflection branch) is the `intList` case; anything else fails. -/
def extractIntSliceFromAttribute : AttrVal → Option (List Int)
  | AttrVal.str s => parseArrayAttr s
  | AttrVal.intList l => some l
  | _ => none

/-- `extractIntegersFromTensorLiteral` (ops.go lines 800-834).  The modelled
`tensorLit` attribute already carries its integer decoding (scalar literals
decode to a one-element list, 1-D integer literals to their element list,
everything else to `none`), so this is the projection of that payload. -/
def extractIntegersFromTensorLiteral (tl : Option (List Int)) : Option (List Int) := tl

/-- Concatenate each input's extraction; any failure aborts
(the loop of ops.go lines 193-201). -/
def concatExtractAll (extract : Value → Option (List Int)) :
    List Value → Option (List Int)
  | [] => some []
  | input :: rest =>
    match extract input with
    | none => none
    | some dims =>
      match concatExtractAll extract rest with
      | none => none
      | some restDims => some (dims ++ restDims)

/-- `tryExtractConcatenatedShape` (ops.go lines 184-204): reject a
non-zero `dimension` attribute (only when it is present and integer-typed),
then extract and concatenate every input. -/
def tryExtractConcatenatedShape (extract : Value → Option (List Int))
    (concatStmt : Statement) : Option (List Int) :=
  if (match lookupAttr concatStmt "dimension" with
      | some (AttrVal.int d) => d != 0
      | _ => false) then none
  else concatExtractAll extract concatStmt.Inputs

/-- The accumulation loop of ops.go lines 222-239: unresolved inputs
contribute `-1` sentinels, one per element of the input's static 1-D extent
(or a single sentinel when that extent is unknown). -/
def concatExtractWithUnknowns (extract : Value → Option (List Int)) :
    List Value → (List Int × Bool × Bool)
  | [] => ([], true, false)
  | input :: rest =>
    let r := concatExtractWithUnknowns extract rest
    match extract input with
    | none =>
      let inputSize : Nat :=
        if input.shape.Rank = 1 ∧ 0 < input.shape.Dimensions.getD 0 0 then
          (input.shape.Dimensions.getD 0 0).toNat
        else 1
      (List.replicate inputSize (-1) ++ r.1, false, r.2.2)
    | some dimValues => (dimValues ++ r.1, r.2.1, true)

/-- `tryExtractConcatenatedShapePartial` of ops.go (lines 206-242; the name is
shortened here): like `tryExtractConcatenatedShape` but reporting
`(vec, allExtracted, anyExtracted)` with `-1` sentinels for unresolved
inputs. -/
def tryExtractConcatenatedShapeWithUnknowns (extract : Value → Option (List Int))
    (concatStmt : Statement) : List Int × Bool × Bool :=
  if (match lookupAttr concatStmt "dimension" with
      | some (AttrVal.int d) => d != 0
      | _ => false) then ([], false, false)
  else concatExtractWithUnknowns extract concatStmt.Inputs

/-- `tryExtractGatherConstant` (ops.go lines 244-285). -/
def tryExtractGatherConstant (extract : Value → Option (List Int))
    (gatherStmt : Statement) : Option (List Int) :=
  match gatherStmt.Inputs with
  | [operand, startIndices] =>
    (match extract operand, extract startIndices with
     | some operandValues, some indexValues =>
       if indexValues.length ≠ 1 then none
       else
         let index := indexValues.getD 0 0
         if index < 0 ∨ (operandValues.length : Int) ≤ index then none
         else some [operandValues.getD index.toNat 0]
     | _, _ => none)
  | _ => none

/-- `tryExtractSliceConstant` (ops.go lines 287-337). -/
def tryExtractSliceConstant (extract : Value → Option (List Int))
    (sliceStmt : Statement) : Option (List Int) :=
  match sliceStmt.Inputs with
  | [operand] =>
    (match extract operand with
     | none => none
     | some operandValues =>
       match lookupAttr sliceStmt "start_indices",
           lookupAttr sliceStmt "limit_indices" with
       | some startAttr, some limitAttr =>
         (match extractIntSliceFromAttribute startAttr,
             extractIntSliceFromAttribute limitAttr with
          | some startIndices, some limitIndices =>
            if startIndices.length ≠ 1 ∨ limitIndices.length ≠ 1 then none
            else
              let start := startIndices.getD 0 0
              let limit := limitIndices.getD 0 0
              if start < 0 ∨ (operandValues.length : Int) < limit ∨ limit ≤ start then
                none
              else some ((operandValues.drop start.toNat).take (limit - start).toNat)
          | _, _ => none)
       | _, _ => none)
  | _ => none

/-- `tryExtractBroadcastInDimConstant` (ops.go lines 339-388). -/
def tryExtractBroadcastInDimConstant (extract : Value → Option (List Int))
    (broadcastStmt : Statement) : Option (List Int) :=
  match broadcastStmt.Inputs with
  | [operand] =>
    (match extract operand with
     | none => none
     | some operandValues =>
       if operandValues.length = 1 then
         let outputShape := (broadcastStmt.Outputs.getD 0 defaultValue).shape
         if outputShape.Rank ≠ 1 then none
         else
           let outputSize := outputShape.Dimensions.getD 0 0
           if outputSize < 0 then none
           else some (List.replicate outputSize.toNat (operandValues.getD 0 0))
       else if 1 < operandValues.length then some operandValues
       else none)
  | _ => none

/-- `tryExtractDynamicBroadcastConstant` (ops.go lines 390-445). -/
def tryExtractDynamicBroadcastConstant (extract : Value → Option (List Int))
    (broadcastStmt : Statement) : Option (List Int) :=
  match broadcastStmt.Inputs with
  | [operand, outputDims] =>
    (match extract operand with
     | none => none
     | some operandValues =>
       let shapeRes := extract outputDims
       if operandValues.length == 1 &&
           (match shapeRes with
            | some outputShape => outputShape.length != 0
            | none => false) then
         let outputSize := (shapeRes.getD []).getD 0 0
         if outputSize ≤ 0 then none
         else some (List.replicate outputSize.toNat (operandValues.getD 0 0))
       else if operandValues.length = 1 then
         let outputShapeFromType := (broadcastStmt.Outputs.getD 0 defaultValue).shape
         if outputShapeFromType.Rank = 1 then
           let outputSize := outputShapeFromType.Dimensions.getD 0 0
           if 0 < outputSize then
             some (List.replicate outputSize.toNat (operandValues.getD 0 0))
           else none
         else none
       else none)
  | _ => none

/-- `tryExtractGetDimensionSize` (ops.go lines 447-489): look the `dimension`
attribute up (Go accepts `int64` or `int`, both are the `int` case here) and
read the operand's static extent; a negative (symbolic) extent is not
extractable. -/
def tryExtractGetDimensionSize (getDimStmt : Statement) : Option (List Int) :=
  match getDimStmt.Inputs with
  | [operand] =>
    (match lookupAttr getDimStmt "dimension" with
     | some (AttrVal.int dimIndex) =>
       if (operand.shape.Rank : Int) ≤ dimIndex ∨ dimIndex < 0 then none
       else
         let dimValue := operand.shape.Dimensions.getD dimIndex.toNat 0
         if dimValue < 0 then none
         else some [dimValue]
     | _ => none)
  | _ => none

/-- `tryExtractMultiplyConstant` (ops.go lines 491-540): scalar × scalar,
element-wise with equal lengths, or scalar broadcast on either side. -/
def tryExtractMultiplyConstant (extract : Value → Option (List Int))
    (multiplyStmt : Statement) : Option (List Int) :=
  match multiplyStmt.Inputs with
  | [l, r] =>
    (match extract l, extract r with
     | some lhsValues, some rhsValues =>
       if lhsValues.length = 1 ∧ rhsValues.length = 1 then
         some [lhsValues.getD 0 0 * rhsValues.getD 0 0]
       else if lhsValues.length = rhsValues.length then
         some (List.zipWith (· * ·) lhsValues rhsValues)
       else if lhsValues.length = 1 then
         some (rhsValues.map (fun x => lhsValues.getD 0 0 * x))
       else if rhsValues.length = 1 then
         some (lhsValues.map (fun x => x * rhsValues.getD 0 0))
       else none
     | _, _ => none)
  | _ => none

/-- `tryExtractSelectConstant` (ops.go lines 542-613): a scalar condition
selects a whole branch; otherwise element-wise selection after broadcasting
scalar branches to the condition's length. -/
def tryExtractSelectConstant (extract : Value → Option (List Int))
    (selectStmt : Statement) : Option (List Int) :=
  match selectStmt.Inputs with
  | [c, t, f] =>
    (match extract c with
     | none => none
     | some condValues =>
       let onTrueRes := extract t
       let onFalseRes := extract f
       if condValues.length = 1 then
         if condValues.getD 0 0 ≠ 0 then
           match onTrueRes with
           | some onTrueValues => some onTrueValues
           | none => none
         else
           match onFalseRes with
           | some onFalseValues => some onFalseValues
           | none => none
       else
         match onTrueRes, onFalseRes with
         | some onTrue0, some onFalse0 =>
           let bcast := condValues.length ≠ onTrue0.length ∨
             condValues.length ≠ onFalse0.length
           let onTrueValues := if bcast ∧ onTrue0.length = 1 then
               List.replicate condValues.length (onTrue0.getD 0 0)
             else onTrue0
           let onFalseValues := if bcast ∧ onFalse0.length = 1 then
               List.replicate condValues.length (onFalse0.getD 0 0)
             else onFalse0
           if condValues.length ≠ onTrueValues.length ∨
               condValues.length ≠ onFalseValues.length then none
           else
             some (List.zipWith (fun cv tf => if cv ≠ 0 then tf.1 else tf.2)
               condValues (onTrueValues.zip onFalseValues))
         | _, _ => none)
  | _ => none

/-- `tryExtractCompareConstant` (ops.go lines 615-701): evaluate the
comparison scalar-wise, element-wise, or with a scalar broadcast. -/
def tryExtractCompareConstant (extract : Value → Option (List Int))
    (compareStmt : Statement) : Option (List Int) :=
  match compareStmt.Inputs with
  | [l, r] =>
    (match extract l, extract r with
     | some lhsValues, some rhsValues =>
       match lookupAttr compareStmt "comparison_direction" with
       | none => none
       | some dirAttr =>
         let dirStr := attrToString dirAttr
         if lhsValues.length = 1 ∧ rhsValues.length = 1 then
           some [compareDirApply dirStr (lhsValues.getD 0 0) (rhsValues.getD 0 0)]
         else if lhsValues.length = rhsValues.length then
           some (List.zipWith (compareDirApply dirStr) lhsValues rhsValues)
         else if lhsValues.length = 1 then
           some (rhsValues.map (fun x => compareDirApply dirStr (lhsValues.getD 0 0) x))
         else if rhsValues.length = 1 then
           some (lhsValues.map (fun x => compareDirApply dirStr x (rhsValues.getD 0 0)))
         else none
     | _, _ => none)
  | _ => none

/-- `tryExtractDivideConstant` (ops.go lines 703-733): only scalar ÷ scalar is
evaluated, and a zero divisor is not extractable. -/
def tryExtractDivideConstant (extract : Value → Option (List Int))
    (divideStmt : Statement) : Option (List Int) :=
  match divideStmt.Inputs with
  | [l, r] =>
    (match extract l, extract r with
     | some lhsValues, some rhsValues =>
       if lhsValues.length ≠ 1 ∨ rhsValues.length ≠ 1 then none
       else if rhsValues.getD 0 0 = 0 then none
       else some [goDiv (lhsValues.getD 0 0) (rhsValues.getD 0 0)]
     | _, _ => none)
  | _ => none

/-- `TryExtractConstantShape` (ops.go lines 99-178): find the statement
producing `shapeValue` (first statement whose outputs contain it) and
dispatch on its opcode; the sequence of `if stmt.OpType == …` blocks, each of
which returns, is written as a single match. -/
def TryExtractConstantShape (fuel : Nat) (fn : Function) (shapeValue : Value) :
    Option (List Int) :=
  match fuel with
  | 0 => none
  | fuel + 1 =>
    match fn.Statements.find?
        (fun stmt => stmt.Outputs.any (fun o => o.id == shapeValue.id)) with
    | none => none
    | some stmt =>
      match stmt.OpType with
      | OpType.Constant =>
        (match lookupAttr stmt "value" with
         | some (AttrVal.tensorLit r) => extractIntegersFromTensorLiteral r
         | _ => none)
      | OpType.Concatenate =>
        tryExtractConcatenatedShape (fun v => TryExtractConstantShape fuel fn v) stmt
      | OpType.Reshape =>
        (match stmt.Inputs with
         | [] => none
         | input :: _ => TryExtractConstantShape fuel fn input)
      | OpType.GetDimensionSize => tryExtractGetDimensionSize stmt
      | OpType.Gather =>
        tryExtractGatherConstant (fun v => TryExtractConstantShape fuel fn v) stmt
      | OpType.Slice =>
        tryExtractSliceConstant (fun v => TryExtractConstantShape fuel fn v) stmt
      | OpType.BroadcastInDim =>
        tryExtractBroadcastInDimConstant
          (fun v => TryExtractConstantShape fuel fn v) stmt
      | OpType.Multiply =>
        tryExtractMultiplyConstant (fun v => TryExtractConstantShape fuel fn v) stmt
      | OpType.Divide =>
        tryExtractDivideConstant (fun v => TryExtractConstantShape fuel fn v) stmt
      | OpType.Select =>
        tryExtractSelectConstant (fun v => TryExtractConstantShape fuel fn v) stmt
      | OpType.Compare =>
        tryExtractCompareConstant (fun v => TryExtractConstantShape fuel fn v) stmt
      | OpType.Convert =>
        (match stmt.Inputs with
         | [] => none
         | input :: _ => TryExtractConstantShape fuel fn input)
      | OpType.DynamicBroadcastInDim =>
        tryExtractDynamicBroadcastConstant
          (fun v => TryExtractConstantShape fuel fn v) stmt
      | _ => none

/-! ## Constant-shape extraction, constprop.go family
(`ExtractConstantShape`, `extractFromStatement` and the `extract…` helpers,
constprop.go lines 11-625).  This file routes attribute access through the
`Statement` methods `ExtractConstantIntegers`, `ExtractIntAttribute` and
`ExtractIntSliceAttribute`, whose implementations live outside `src/` and are
modelled from the spec below. -/

/-- Modelled from the spec: `Statement.ExtractConstantIntegers` is not under
`src/`.  Per §4.4 the `Constant` case extracts "literal integers" from the
statement's tensor-literal `value` attribute, exactly what ops.go does
inline with `extractIntegersFromTensorLiteral`. -/
def Statement.ExtractConstantIntegers (stmt : Statement) : Option (List Int) :=
  match lookupAttr stmt "value" with
  | some (AttrVal.tensorLit r) => r
  | _ => none

/-- Modelled from the spec: `Statement.ExtractIntAttribute` is not under
`src/`.  It reads an integer-typed attribute (ops.go's inline twin accepts Go
`int64`/`int`, both the `int` case here). -/
def Statement.ExtractIntAttribute (stmt : Statement) (key : String) : Option Int :=
  match lookupAttr stmt key with
  | some (AttrVal.int i) => some i
  | _ => none

/-- Modelled from the spec: `Statement.ExtractIntSliceAttribute` is not under
`src/`.  It decodes an integer-slice attribute the same way ops.go's
`extractIntSliceFromAttribute` does (array-attribute strings and integer
slices). -/
def Statement.ExtractIntSliceAttribute (stmt : Statement) (key : String) :
    Option (List Int) :=
  match lookupAttr stmt key with
  | some (AttrVal.str s) => parseArrayAttr s
  | some (AttrVal.intList l) => some l
  | _ => none

/-- `extractConcatenatedShape` (constprop.go lines 96-118). -/
def extractConcatenatedShape (extract : Value → Option (List Int))
    (concatStmt : Statement) : Option (List Int) :=
  if (match concatStmt.ExtractIntAttribute "dimension" with
      | some d => d != 0
      | none => false) then none
  else concatExtractAll extract concatStmt.Inputs

/-- `extractGatherConstant` (constprop.go lines 157-198). -/
def extractGatherConstant (extract : Value → Option (List Int))
    (gatherStmt : Statement) : Option (List Int) :=
  match gatherStmt.Inputs with
  | [operand, startIndices] =>
    (match extract operand, extract startIndices with
     | some operandValues, some indexValues =>
       if indexValues.length ≠ 1 then none
       else
         let index := indexValues.getD 0 0
         if index < 0 ∨ (operandValues.length : Int) ≤ index then none
         else some [operandValues.getD index.toNat 0]
     | _, _ => none)
  | _ => none

/-- `extractSliceConstant` (constprop.go lines 200-239). -/
def extractSliceConstant (extract : Value → Option (List Int))
    (sliceStmt : Statement) : Option (List Int) :=
  match sliceStmt.Inputs with
  | [operand] =>
    (match extract operand with
     | none => none
     | some operandValues =>
       match sliceStmt.ExtractIntSliceAttribute "start_indices",
           sliceStmt.ExtractIntSliceAttribute "limit_indices" with
       | some startIndices, some limitIndices =>
         if startIndices.length ≠ 1 ∨ limitIndices.length ≠ 1 then none
         else
           let start := startIndices.getD 0 0
           let limit := limitIndices.getD 0 0
           if start < 0 ∨ (operandValues.length : Int) < limit ∨ limit ≤ start then
             none
           else some ((operandValues.drop start.toNat).take (limit - start).toNat)
       | _, _ => none)
  | _ => none

/-- `extractBroadcastInDimConstant` (constprop.go lines 241-290). -/
def extractBroadcastInDimConstant (extract : Value → Option (List Int))
    (broadcastStmt : Statement) : Option (List Int) :=
  match broadcastStmt.Inputs with
  | [operand] =>
    (match extract operand with
     | none => none
     | some operandValues =>
       if operandValues.length = 1 then
         let outputShape := (broadcastStmt.Outputs.getD 0 defaultValue).shape
         if outputShape.Rank ≠ 1 then none
         else
           let outputSize := outputShape.Dimensions.getD 0 0
           if outputSize < 0 then none
           else some (List.replicate outputSize.toNat (operandValues.getD 0 0))
       else if 1 < operandValues.length then some operandValues
       else none)
  | _ => none

/-- `extractDynamicBroadcastConstant` (constprop.go lines 292-347). -/
def extractDynamicBroadcastConstant (extract : Value → Option (List Int))
    (broadcastStmt : Statement) : Option (List Int) :=
  match broadcastStmt.Inputs with
  | [operand, outputDims] =>
    (match extract operand with
     | none => none
     | some operandValues =>
       let shapeRes := extract outputDims
       if operandValues.length == 1 &&
           (match shapeRes with
            | some outputShape => outputShape.length != 0
            | none => false) then
         let outputSize := (shapeRes.getD []).getD 0 0
         if outputSize ≤ 0 then none
         else some (List.replicate outputSize.toNat (operandValues.getD 0 0))
       else if operandValues.length = 1 then
         let outputShapeFromType := (broadcastStmt.Outputs.getD 0 defaultValue).shape
         if outputShapeFromType.Rank = 1 then
           let outputSize := outputShapeFromType.Dimensions.getD 0 0
           if 0 < outputSize then
             some (List.replicate outputSize.toNat (operandValues.getD 0 0))
           else none
         else none
       else none)
  | _ => none

/-- `extractGetDimensionSize` (constprop.go lines 349-381). -/
def extractGetDimensionSize (getDimStmt : Statement) : Option (List Int) :=
  match getDimStmt.Inputs with
  | [operand] =>
    (match getDimStmt.ExtractIntAttribute "dimension" with
     | some dimIndex =>
       if (operand.shape.Rank : Int) ≤ dimIndex ∨ dimIndex < 0 then none
       else
         let dimValue := operand.shape.Dimensions.getD dimIndex.toNat 0
         if dimValue < 0 then none
         else some [dimValue]
     | none => none)
  | _ => none

/-- `extractMultiplyConstant` (constprop.go lines 383-432). -/
def extractMultiplyConstant (extract : Value → Option (List Int))
    (multiplyStmt : Statement) : Option (List Int) :=
  match multiplyStmt.Inputs with
  | [l, r] =>
    (match extract l, extract r with
     | some lhsValues, some rhsValues =>
       if lhsValues.length = 1 ∧ rhsValues.length = 1 then
         some [lhsValues.getD 0 0 * rhsValues.getD 0 0]
       else if lhsValues.length = rhsValues.length then
         some (List.zipWith (· * ·) lhsValues rhsValues)
       else if lhsValues.length = 1 then
         some (rhsValues.map (fun x => lhsValues.getD 0 0 * x))
       else if rhsValues.length = 1 then
         some (lhsValues.map (fun x => x * rhsValues.getD 0 0))
       else none
     | _, _ => none)
  | _ => none

/-- `extractSelectConstant` (constprop.go lines 434-505). -/
def extractSelectConstant (extract : Value → Option (List Int))
    (selectStmt : Statement) : Option (List Int) :=
  match selectStmt.Inputs with
  | [c, t, f] =>
    (match extract c with
     | none => none
     | some condValues =>
       let onTrueRes := extract t
       let onFalseRes := extract f
       if condValues.length = 1 then
         if condValues.getD 0 0 ≠ 0 then
           match onTrueRes with
           | some onTrueValues => some onTrueValues
           | none => none
         else
           match onFalseRes with
           | some onFalseValues => some onFalseValues
           | none => none
       else
         match onTrueRes, onFalseRes with
         | some onTrue0, some onFalse0 =>
           let bcast := condValues.length ≠ onTrue0.length ∨
             condValues.length ≠ onFalse0.length
           let onTrueValues := if bcast ∧ onTrue0.length = 1 then
               List.replicate condValues.length (onTrue0.getD 0 0)
             else onTrue0
           let onFalseValues := if bcast ∧ onFalse0.length = 1 then
               List.replicate condValues.length (onFalse0.getD 0 0)
             else onFalse0
           if condValues.length ≠ onTrueValues.length ∨
               condValues.length ≠ onFalseValues.length then none
           else
             some (List.zipWith (fun cv tf => if cv ≠ 0 then tf.1 else tf.2)
               condValues (onTrueValues.zip onFalseValues))
         | _, _ => none)
  | _ => none

/-- `extractCompareConstant` (constprop.go lines 507-593). -/
def extractCompareConstant (extract : Value → Option (List Int))
    (compareStmt : Statement) : Option (List Int) :=
  match compareStmt.Inputs with
  | [l, r] =>
    (match extract l, extract r with
     | some lhsValues, some rhsValues =>
       match lookupAttr compareStmt "comparison_direction" with
       | none => none
       | some dirAttr =>
         let dirStr := attrToString dirAttr
         if lhsValues.length = 1 ∧ rhsValues.length = 1 then
           some [compareDirApply dirStr (lhsValues.getD 0 0) (rhsValues.getD 0 0)]
         else if lhsValues.length = rhsValues.length then
           some (List.zipWith (compareDirApply dirStr) lhsValues rhsValues)
         else if lhsValues.length = 1 then
           some (rhsValues.map (fun x => compareDirApply dirStr (lhsValues.getD 0 0) x))
         else if rhsValues.length = 1 then
           some (lhsValues.map (fun x => compareDirApply dirStr x (rhsValues.getD 0 0)))
         else none
     | _, _ => none)
  | _ => none

/-- `extractDivideConstant` (constprop.go lines 595-625). -/
def extractDivideConstant (extract : Value → Option (List Int))
    (divideStmt : Statement) : Option (List Int) :=
  match divideStmt.Inputs with
  | [l, r] =>
    (match extract l, extract r with
     | some lhsValues, some rhsValues =>
       if lhsValues.length ≠ 1 ∨ rhsValues.length ≠ 1 then none
       else if rhsValues.getD 0 0 = 0 then none
       else some [goDiv (lhsValues.getD 0 0) (rhsValues.getD 0 0)]
     | _, _ => none)
  | _ => none

/-- `extractFromStatement` (constprop.go lines 29-94): the opcode dispatch of
the constprop extractor. -/
def extractFromStatement (extract : Value → Option (List Int))
    (stmt : Statement) : Option (List Int) :=
  match stmt.OpType with
  | OpType.Constant => stmt.ExtractConstantIntegers
  | OpType.Concatenate => extractConcatenatedShape extract stmt
  | OpType.Reshape =>
    (match stmt.Inputs with
     | [] => none
     | input :: _ => extract input)
  | OpType.GetDimensionSize => extractGetDimensionSize stmt
  | OpType.Gather => extractGatherConstant extract stmt
  | OpType.Slice => extractSliceConstant extract stmt
  | OpType.BroadcastInDim => extractBroadcastInDimConstant extract stmt
  | OpType.Multiply => extractMultiplyConstant extract stmt
  | OpType.Divide => extractDivideConstant extract stmt
  | OpType.Select => extractSelectConstant extract stmt
  | OpType.Compare => extractCompareConstant extract stmt
  | OpType.Convert =>
    (match stmt.Inputs with
     | [] => none
     | input :: _ => extract input)
  | OpType.DynamicBroadcastInDim => extractDynamicBroadcastConstant extract stmt
  | _ => none

/-- `ExtractConstantShape` (constprop.go lines 11-27): find the producing
statement and dispatch via `extractFromStatement`. -/
def ExtractConstantShape (fuel : Nat) (fn : Function) (shapeValue : Value) :
    Option (List Int) :=
  match fuel with
  | 0 => none
  | fuel + 1 =>
    match fn.Statements.find?
        (fun stmt => stmt.Outputs.any (fun o => o.id == shapeValue.id)) with
    | none => none
    | some stmt =>
      extractFromStatement (fun v => ExtractConstantShape fuel fn v) stmt

/-! ### Equivalence of the two extractor families (C10) -/

lemma constantCase_eq (stmt : Statement) :
    (match lookupAttr stmt "value" with
     | some (AttrVal.tensorLit r) => extractIntegersFromTensorLiteral r
     | _ => none) = stmt.ExtractConstantIntegers := by
  unfold Statement.ExtractConstantIntegers extractIntegersFromTensorLiteral
  cases h : lookupAttr stmt "value" with
  | none => rfl
  | some a => cases a <;> rfl

lemma concatenated_eq (e : Value → Option (List Int)) (s : Statement) :
    tryExtractConcatenatedShape e s = extractConcatenatedShape e s := by
  unfold tryExtractConcatenatedShape extractConcatenatedShape
    Statement.ExtractIntAttribute
  cases h : lookupAttr s "dimension" with
  | none => rfl
  | some a => cases a <;> rfl

lemma gather_eq (e : Value → Option (List Int)) (s : Statement) :
    tryExtractGatherConstant e s = extractGatherConstant e s := by
  unfold tryExtractGatherConstant extractGatherConstant
  rfl

lemma slice_eq (e : Value → Option (List Int)) (s : Statement) :
    tryExtractSliceConstant e s = extractSliceConstant e s := by
  unfold tryExtractSliceConstant extractSliceConstant
    Statement.ExtractIntSliceAttribute extractIntSliceFromAttribute
  rcases hIn : s.Inputs with _ | ⟨operand, _ | ⟨v2, rest⟩⟩ <;> try rfl
  dsimp only
  cases h0 : e operand with
  | none => rfl
  | some operandValues =>
    cases h1 : lookupAttr s "start_indices" with
    | none =>
      cases h2 : lookupAttr s "limit_indices" with
      | none => rfl
      | some b => cases b <;> rfl
    | some a =>
      cases h2 : lookupAttr s "limit_indices" with
      | none =>
        cases a <;> try rfl
        rename_i s1
        dsimp only
        cases parseArrayAttr s1 <;> rfl
      | some b => cases a <;> cases b <;> rfl

lemma broadcastInDim_eq (e : Value → Option (List Int)) (s : Statement) :
    tryExtractBroadcastInDimConstant e s = extractBroadcastInDimConstant e s := by
  unfold tryExtractBroadcastInDimConstant extractBroadcastInDimConstant
  rfl

lemma dynamicBroadcast_eq (e : Value → Option (List Int)) (s : Statement) :
    tryExtractDynamicBroadcastConstant e s = extractDynamicBroadcastConstant e s := by
  unfold tryExtractDynamicBroadcastConstant extractDynamicBroadcastConstant
  rfl

lemma getDimensionSize_eq (s : Statement) :
    tryExtractGetDimensionSize s = extractGetDimensionSize s := by
  unfold tryExtractGetDimensionSize extractGetDimensionSize
    Statement.ExtractIntAttribute
  rcases hIn : s.Inputs with _ | ⟨operand, _ | ⟨v2, rest⟩⟩ <;> try rfl
  dsimp only
  cases h : lookupAttr s "dimension" with
  | none => rfl
  | some a => cases a <;> rfl

lemma multiply_eq (e : Value → Option (List Int)) (s : Statement) :
    tryExtractMultiplyConstant e s = extractMultiplyConstant e s := by
  unfold tryExtractMultiplyConstant extractMultiplyConstant
  rfl

lemma selectC_eq (e : Value → Option (List Int)) (s : Statement) :
    tryExtractSelectConstant e s = extractSelectConstant e s := by
  unfold tryExtractSelectConstant extractSelectConstant
  rfl

lemma compare_eq (e : Value → Option (List Int)) (s : Statement) :
    tryExtractCompareConstant e s = extractCompareConstant e s := by
  unfold tryExtractCompareConstant extractCompareConstant
  rfl

lemma divide_eq (e : Value → Option (List Int)) (s : Statement) :
    tryExtractDivideConstant e s = extractDivideConstant e s := by
  unfold tryExtractDivideConstant extractDivideConstant
  rfl

/-- C10 — The two parallel constant-shape extractors,
`TryExtractConstantShape` of ops.go and `ExtractConstantShape` of
constprop.go, agree on every function, every shape value (and every recursion
fuel). -/
theorem C10_extractors_equivalent (fuel : Nat) (fn : Function) :
    ∀ v, TryExtractConstantShape fuel fn v = ExtractConstantShape fuel fn v := by
  induction fuel with
  | zero => intro v; rfl
  | succ f ih =>
    intro v
    rw [TryExtractConstantShape, ExtractConstantShape]
    cases hfind : fn.Statements.find?
        (fun stmt => stmt.Outputs.any (fun o => o.id == v.id)) with
    | none => rfl
    | some stmt =>
      dsimp only
      have he : (fun v' => TryExtractConstantShape f fn v') =
          (fun v' => ExtractConstantShape f fn v') := funext ih
      obtain ⟨op, ins, outs, attrs⟩ := stmt
      cases op
      case Constant => exact constantCase_eq ⟨OpType.Constant, ins, outs, attrs⟩
      case Concatenate =>
        rw [he]; exact concatenated_eq _ ⟨OpType.Concatenate, ins, outs, attrs⟩
      case Reshape =>
        cases ins with
        | nil => rfl
        | cons input rest => exact ih input
      case Convert =>
        cases ins with
        | nil => rfl
        | cons input rest => exact ih input
      case GetDimensionSize =>
        exact getDimensionSize_eq ⟨OpType.GetDimensionSize, ins, outs, attrs⟩
      case Gather => rw [he]; exact gather_eq _ ⟨OpType.Gather, ins, outs, attrs⟩
      case Slice => rw [he]; exact slice_eq _ ⟨OpType.Slice, ins, outs, attrs⟩
      case BroadcastInDim =>
        rw [he]; exact broadcastInDim_eq _ ⟨OpType.BroadcastInDim, ins, outs, attrs⟩
      case Multiply =>
        rw [he]; exact multiply_eq _ ⟨OpType.Multiply, ins, outs, attrs⟩
      case Divide => rw [he]; exact divide_eq _ ⟨OpType.Divide, ins, outs, attrs⟩
      case Select => rw [he]; exact selectC_eq _ ⟨OpType.Select, ins, outs, attrs⟩
      case Compare => rw [he]; exact compare_eq _ ⟨OpType.Compare, ins, outs, attrs⟩
      case DynamicBroadcastInDim =>
        rw [he]
        exact dynamicBroadcast_eq _ ⟨OpType.DynamicBroadcastInDim, ins, outs, attrs⟩
      case DynamicReshape => rfl
      case Add => rfl
      case While => rfl
      case OtherOp => rfl

/-! ## Builder operations and the §4.4 rewrite policies (ops.go) -/

/-- The fuel that reproduces the Go recursion of the extractor exactly:
every statement's inputs are produced by strictly earlier statements, so the
recursion depth is bounded by the statement count. -/
def tryExtractConstantShapeTop (fn : Function) (v : Value) : Option (List Int) :=
  TryExtractConstantShape (fn.Statements.length + 1) fn v

/-- Go's built-in `copy(dst, src)` on `[]int`: overwrite the first
`min (len dst) (len src)` entries of `dst` with those of `src`. -/
def goCopy (dst src : List Int) : List Int :=
  (List.range dst.length).map
    (fun i => if i < src.length then src.getD i 0 else dst.getD i 0)

/-- `BroadcastInDim` (ops.go lines 1190-1204).  `inferBroadcastInDim`
abstracts `shapeinference.BroadcastInDim` (outside `src/`), which only
validates (it returns just an error); the appended statement's output shape is
the `target` argument itself.  The `broadcast_dimensions` attribute (a
`literalStr` in Go) is modelled as the integer list it renders. -/
def BroadcastInDim (inferBroadcastInDim : Shape → Shape → List Int → Bool)
    (fn : Function) (operand : Value) (target : Shape) (axesMapping : List Int) :
    Function × Except String Value :=
  if fn.Returned then
    (fn, Except.error "cannot add operation after returning")
  else if inferBroadcastInDim operand.shape target axesMapping = false then
    (fn, Except.error "shape inference failed")
  else
    let r := fn.addOp OpType.BroadcastInDim target [operand]
      [("broadcast_dimensions", AttrVal.intList axesMapping)]
    (r.1, Except.ok r.2)

/-- `Reshape` (ops.go lines 1147-1183): dtype check, then the size check is
skipped exactly when either side has a negative (symbolic) dimension. -/
def Reshape (fn : Function) (operand : Value) (shape : Shape) :
    Function × Except String Value :=
  if fn.Returned then
    (fn, Except.error "cannot add operation after returning")
  else if operand.shape.dtype ≠ shape.dtype then
    (fn, Except.error "operand and shape must have the same data type")
  else
    let hasSymbolic := operand.shape.Dimensions.any (fun d => decide (d < 0)) ||
      shape.Dimensions.any (fun d => decide (d < 0))
    if !hasSymbolic && (operand.shape.Size != shape.Size) then
      (fn, Except.error "total size of the new shape must match")
    else
      let r := fn.addOp OpType.Reshape shape [operand] []
      (r.1, Except.ok r.2)

/-- The broadcast-validity loop of the fully-concrete path
(ops.go lines 2579-2589): for each operand axis mapped to an in-range target
axis, the operand extent must be 1 or equal the target extent. -/
def broadcastValidAll (operandDims concreteShape broadcastDimensions : List Int) :
    Bool :=
  (List.range broadcastDimensions.length).all (fun i =>
    let outputAxis := broadcastDimensions.getD i 0
    if 0 ≤ outputAxis ∧ outputAxis < (concreteShape.length : Int) then
      let operandDim := operandDims.getD i 0
      operandDim == 1 || operandDim == concreteShape.getD outputAxis.toNat 0
    else true)

/-- The broadcast-validity loop of the partially-extracted path
(ops.go lines 2662-2672): only positive operand extents are constrained. -/
def broadcastValidFilled (operandDims filledShape broadcastDimensions : List Int) :
    Bool :=
  (List.range broadcastDimensions.length).all (fun i =>
    let outputAxis := broadcastDimensions.getD i 0
    if 0 ≤ outputAxis ∧ outputAxis < (filledShape.length : Int) then
      let operandDim := operandDims.getD i 0
      if 0 < operandDim ∧ operandDim ≠ 1 ∧
          operandDim ≠ filledShape.getD outputAxis.toNat 0 then false
      else true
    else true)

/-- Which statement `DynamicBroadcastInDim` ends up appending: a static
`BroadcastInDim` with the given target shape, or the dynamic op with the
given output shape. -/
inductive DynBroadcastDecision where
  | toStatic (target : Shape)
  | toDynamic (outputShape : Shape)
deriving DecidableEq, Repr

/-- `outputRank` of `DynamicBroadcastInDim` (ops.go lines 2552-2558):
`outputDimensions.shape.Dimensions[0]`, falling back to the operand's rank
when that extent is symbolic (negative). -/
def dynOutputRank (operand outputDimensions : Value) : Nat :=
  if outputDimensions.shape.Dimensions.getD 0 0 < 0 then operand.shape.Rank
  else (outputDimensions.shape.Dimensions.getD 0 0).toNat

/-- The rewrite-policy core of `DynamicBroadcastInDim` (ops.go lines
2551-2734), separated from the statement emission: every path of the Go code
either returns the static broadcast or falls through to the dynamic
emission. -/
def dynBroadcastDecision (fn : Function) (operand outputDimensions : Value)
    (broadcastDimensions : List Int) : DynBroadcastDecision :=
  let outputRank : Nat := dynOutputRank operand outputDimensions
  let outputShape0 : Shape :=
    { operand.shape.Clone with Dimensions := List.replicate outputRank 0 }
  match tryExtractConstantShapeTop fn outputDimensions with
  | some concreteShape =>
    if concreteShape.all (fun dim => decide (0 < dim)) then
      if broadcastValidAll operand.shape.Dimensions concreteShape
          broadcastDimensions then
        DynBroadcastDecision.toStatic
          { operand.shape.Clone with Dimensions := concreteShape }
      else
        DynBroadcastDecision.toDynamic
          { outputShape0 with
            Dimensions := List.replicate outputRank (-3)
            DimensionBounds := (List.range outputRank).map (fun i =>
              if i < concreteShape.length ∧ 0 < concreteShape.getD i 0 then
                concreteShape.getD i 0
              else 2048) }
    else
      DynBroadcastDecision.toDynamic
        { outputShape0 with
          Dimensions := goCopy outputShape0.Dimensions concreteShape }
  | none =>
    let partialShapeRes : Option (List Int) :=
      match fn.Statements.find? (fun stmt =>
          stmt.OpType == OpType.Concatenate &&
          stmt.Outputs.any (fun o => o.id == outputDimensions.id)) with
      | some stmt =>
        let p := tryExtractConcatenatedShapeWithUnknowns
          (fun v => tryExtractConstantShapeTop fn v) stmt
        if p.2.2 then some p.1 else none
      | none => none
    let fallback : DynBroadcastDecision :=
      let operandIsConcrete :=
        operand.shape.Dimensions.all (fun d => !decide (d < 0))
      let hasBroadcastableDim := operand.shape.Dimensions.any (fun d => d == 1)
      if operandIsConcrete && (outputRank == operand.shape.Dimensions.length) &&
          !hasBroadcastableDim then
        DynBroadcastDecision.toDynamic
          { outputShape0 with
            Dimensions := goCopy outputShape0.Dimensions operand.shape.Dimensions }
      else
        let maxDim := operand.shape.Dimensions.foldl
          (fun m d => if 0 < d ∧ m < d then d else m) 1
        let cb0 := maxDim * (outputRank : Int)
        let cb1 := if cb0 < 2048 then 2048 else cb0
        let cb := if 65536 < cb1 then 65536 else cb1
        DynBroadcastDecision.toDynamic
          { outputShape0 with
            Dimensions := List.replicate outputRank (-1)
            DimensionBounds := List.replicate outputRank cb }
    match partialShapeRes with
    | some partialShape =>
      if partialShape.length = outputRank then
        let filledShape := partialShape.map (fun dim => if 0 < dim then dim else 128)
        if broadcastValidFilled operand.shape.Dimensions filledShape
            broadcastDimensions then
          DynBroadcastDecision.toStatic
            { operand.shape.Clone with Dimensions := filledShape }
        else fallback
      else fallback
    | none => fallback

/-- `DynamicBroadcastInDim` (ops.go lines 2523-2741): validations, then the
rewrite decision, then either the static `BroadcastInDim` call or the dynamic
statement emission. -/
def DynamicBroadcastInDim (inferBroadcastInDim : Shape → Shape → List Int → Bool)
    (fn : Function) (operand outputDimensions : Value)
    (broadcastDimensions : List Int) : Function × Except String Value :=
  if fn.Returned then
    (fn, Except.error "cannot add operation after returning")
  else if outputDimensions.fnId ≠ fn.id then
    (fn, Except.error "operand and outputDimensions are from different functions")
  else if outputDimensions.shape.Rank ≠ 1 then
    (fn, Except.error "outputDimensions must be a 1D tensor")
  else if outputDimensions.shape.dtype.IsInt = false then
    (fn, Except.error "outputDimensions must be integer type")
  else if broadcastDimensions.length ≠ operand.shape.Rank then
    (fn, Except.error "broadcastDimensions length must match operand rank")
  else
    match dynBroadcastDecision fn operand outputDimensions broadcastDimensions with
    | DynBroadcastDecision.toStatic target =>
      BroadcastInDim inferBroadcastInDim fn operand target broadcastDimensions
    | DynBroadcastDecision.toDynamic outputShape =>
      let r := fn.addOp OpType.DynamicBroadcastInDim outputShape
        [operand, outputDimensions]
        [("broadcast_dimensions", AttrVal.intList broadcastDimensions)]
      (r.1, Except.ok r.2)

/-! ### `DynamicReshape` (ops.go lines 2785-3186)

Every rewrite path of the Go function returns a static `Reshape(operand,
targetShape)`; the trailing dynamic emission (`fn.addOp(op, resultShape, …)`,
lines 3184-3185) is unreachable because both branches of the
`if ok { … } else { … }` return on all paths.  The target-shape computation
is therefore separated into the pure `dynReshapeTarget` below and
`DynamicReshape` always calls `Reshape` after its validations. -/

/-- Product of the positive entries only
(`for _, dim := range staticDims { if dim > 0 { newOutputSize *= dim } }`,
ops.go lines 2961-2966). -/
def prodPos (l : List Int) : Int :=
  l.foldl (fun a d => if 0 < d then a * d else a) 1

/-- The first analysis loop over the extracted shape (ops.go lines
2817-2835): record `-1` slots (last index wins), accumulate the product of
positive entries, substitute `0` entries by the operand's extent when that is
known positive, otherwise mark the shape as having unresolved slots. -/
def drScan (operandDims : List Int) : List Int → Nat → Bool → Int → Int →
    List Int × Bool × Int × Int
  | [], _, h, idx, kp => ([], h, idx, kp)
  | dim :: rest, i, h, idx, kp =>
    if dim = -1 then
      let r := drScan operandDims rest (i + 1) true (i : Int) kp
      (dim :: r.1, r.2)
    else if 0 < dim then
      let r := drScan operandDims rest (i + 1) h idx (kp * dim)
      (dim :: r.1, r.2)
    else if dim = 0 then
      if i < operandDims.length ∧ 0 < operandDims.getD i 0 then
        let nd := operandDims.getD i 0
        let r := drScan operandDims rest (i + 1) h idx (kp * nd)
        (nd :: r.1, r.2)
      else
        let r := drScan operandDims rest (i + 1) true idx kp
        (dim :: r.1, r.2)
    else
      let r := drScan operandDims rest (i + 1) h idx kp
      (dim :: r.1, r.2)

/-- The static-dimension builder of the unresolved branch (ops.go lines
2854-2868): positive entries are kept, the last `-1` slot is remembered as
`inferIdx`, every other entry defaults to 128. -/
def drBuildStatic : List Int → List Int → Nat → Int → Int → List Int × Int × Int
  | [], staticDims, _, kp, inferIdx => (staticDims, kp, inferIdx)
  | dim :: rest, staticDims, i, kp, inferIdx =>
    if 0 < dim then drBuildStatic rest (staticDims.set i dim) (i + 1) (kp * dim) inferIdx
    else if dim = -1 then drBuildStatic rest staticDims (i + 1) kp (i : Int)
    else drBuildStatic rest (staticDims.set i 128) (i + 1) (kp * 128) inferIdx

/-- The fix-up scan of the concrete-but-mismatched branch (ops.go lines
2942-2951): product of entries in `(0, inputSize]`, last other index wins. -/
def drScanUnknown (inputSize : Int) : List Int → Nat → Int → Int → Int × Int
  | [], _, kp, u => (kp, u)
  | dim :: rest, i, kp, u =>
    if 0 < dim ∧ dim ≤ inputSize then drScanUnknown inputSize rest (i + 1) (kp * dim) u
    else drScanUnknown inputSize rest (i + 1) kp (i : Int)

/-- First `validDims` pass (ops.go lines 2982-2991): keep entries that divide
the remaining size, mark the others `0` and count them. -/
def drValidPass1 : List Int → Int → List Int × Int × Nat
  | [], rs => ([], rs, 0)
  | dim :: rest, rs =>
    if 0 < dim ∧ dim ≤ rs ∧ goMod rs dim = 0 then
      let r := drValidPass1 rest (goDiv rs dim)
      (dim :: r.1, r.2)
    else
      let r := drValidPass1 rest rs
      (0 :: r.1, r.2.1, r.2.2 + 1)

/-- Second `validDims` pass (ops.go lines 2993-3009): marked slots become 1,
except the last one, which absorbs the remaining size. -/
def drValidPass2 : List Int → Int → Nat → List Int
  | [], _, _ => []
  | d :: rest, rs, dti =>
    if d = 0 then
      if dti = 1 then rs :: drValidPass2 rest 1 0
      else 1 :: drValidPass2 rest rs (dti - 1)
    else d :: drValidPass2 rest rs dti

/-- The bound-product loop of the extraction-failed branch (ops.go lines
3080-3091), with its 65536 saturation (`if inputSize > 65536/bound`). -/
def drBoundsSize : List Int → Int → Int
  | [], acc => acc
  | b :: rest, acc =>
    if 0 < b then
      if goDiv 65536 b < acc then 65536
      else drBoundsSize rest (acc * b)
    else drBoundsSize rest acc

/-- Input size of the extraction-failed branch (ops.go lines 3071-3091):
product of the positive dimensions, or — when none is positive and bounds
exist — the saturated product of the positive bounds. -/
def drInputSize (operandDims boundsL : List Int) : Int :=
  let base := operandDims.foldl (fun acc d => if 0 < d then acc * d else acc) 1
  let hasConcreteDim := operandDims.any (fun d => decide (0 < d))
  if !hasConcreteDim && (boundsL.length != 0) then drBoundsSize boundsL 1
  else base

/-- The partial-shape fill scan of the extraction-failed branch (ops.go lines
3095-3107): positive entries kept (product accumulated), others counted as
unknown, last unknown index remembered; built entries default to 0. -/
def drPartialScan : List Int → Nat → Int → Nat → Int → List Int × Int × Nat × Int
  | [], _, kp, uc, ui => ([], kp, uc, ui)
  | dim :: rest, i, kp, uc, ui =>
    if 0 < dim then
      let r := drPartialScan rest (i + 1) (kp * dim) uc ui
      (dim :: r.1, r.2)
    else
      let r := drPartialScan rest (i + 1) kp (uc + 1) (i : Int)
      ((0 : Int) :: r.1, r.2)

/-- The target shape `DynamicReshape` passes to `Reshape`, covering every
rewrite path of ops.go lines 2807-3182.  `outputRank` is
`outputShape.shape.Dimensions[0]` (`toNat` models the Go `make` panic domain:
the Go code would panic on a negative rank). -/
def dynReshapeTarget (fn : Function) (operand outputShapeValue : Value) : Shape :=
  let operandDims := operand.shape.Dimensions
  let boundsL := operand.shape.DimensionBounds
  let outputRank : Nat := (outputShapeValue.shape.Dimensions.getD 0 0).toNat
  match tryExtractConstantShapeTop fn outputShapeValue with
  | some concreteShape =>
    let scan := drScan operandDims concreteShape 0 false (-1) 1
    let cs1 := scan.1
    let hasInferDim0 := scan.2.1
    let inferDimIndex := scan.2.2.1
    let knownProduct := scan.2.2.2
    let resolved :=
      if hasInferDim0 ∧ 0 ≤ inferDimIndex then
        (if 0 < operand.shape.Size ∧ 0 < knownProduct then
          (cs1.set inferDimIndex.toNat (goDiv operand.shape.Size knownProduct), false)
        else (cs1, hasInferDim0))
      else (cs1, hasInferDim0)
    let cs2 := resolved.1
    let hasInferDim := resolved.2
    if hasInferDim then
      -- ops.go lines 2848-2900: unresolvable slots remain.
      let inputSize := operand.shape.Size
      let b := drBuildStatic cs2 (List.replicate outputRank 0) 0 1 (-1)
      let sd0 := b.1
      let kp2 := b.2.1
      let inferIdx := b.2.2
      let sd1 :=
        if 0 ≤ inferIdx ∧ 0 < inputSize ∧ 0 < kp2 then
          (if 0 < goDiv inputSize kp2 then sd0.set inferIdx.toNat (goDiv inputSize kp2)
           else sd0.set inferIdx.toNat 1)
        else sd0
      let outputSize := prodInt sd1
      let sd2 :=
        if 0 < inputSize ∧ outputSize ≠ inputSize then
          (List.range sd1.length).foldl
            (fun acc i =>
              if i < operandDims.length ∧ 0 < operandDims.getD i 0 then
                acc.set i (operandDims.getD i 0)
              else acc) sd1
        else sd1
      { operand.shape.Clone with Dimensions := sd2, DimensionBounds := [] }
    else
      -- ops.go lines 2901-3047: all extracted entries are "concrete".
      let inputSize := operand.shape.Size
      let outputSize := prodInt cs2
      if operandDims.any (fun d => decide (d < 0)) then
        { operand.shape.Clone with Dimensions := cs2 }
      else if 0 < inputSize ∧ 0 < outputSize ∧ inputSize = outputSize then
        { operand.shape.Clone with Dimensions := cs2 }
      else
        let staticDims0 := goCopy (List.replicate outputRank 0) cs2
        let sd1 :=
          if 0 < inputSize then
            (let su := drScanUnknown inputSize staticDims0 0 1 (-1)
             if 0 ≤ su.2 ∧ 0 < su.1 then
               (if 0 < goDiv inputSize su.1 then
                 staticDims0.set su.2.toNat (goDiv inputSize su.1)
               else staticDims0)
             else staticDims0)
          else staticDims0
        if prodPos sd1 = inputSize then
          { operand.shape.Clone with Dimensions := sd1 }
        else
          let p1 := drValidPass1 sd1 inputSize
          let validDims1 :=
            if 0 < p1.2.2 ∧ 0 < p1.2.1 then drValidPass2 p1.1 p1.2.1 p1.2.2
            else p1.1
          let validDims2 :=
            if prodInt validDims1 ≠ inputSize then
              (if outputRank = operandDims.length then goCopy validDims1 operandDims
               else if operandDims.length < outputRank then
                 (List.range outputRank).map (fun i =>
                   if i < outputRank - operandDims.length then 1
                   else
                     let srcIdx := i - (outputRank - operandDims.length)
                     if srcIdx < operandDims.length ∧ 0 < operandDims.getD srcIdx 0 then
                       operandDims.getD srcIdx 0
                     else 1)
               else (List.range outputRank).map (fun i =>
                 if i = outputRank - 1 then inputSize else 1))
            else validDims1
          { operand.shape.Clone with Dimensions := validDims2 }
  | none =>
    -- ops.go lines 3049-3182: extraction failed; try the partial Concatenate
    -- extraction, then the conservative static fallback.
    let partialShapeRes : Option (List Int) :=
      match fn.Statements.find? (fun stmt =>
          stmt.OpType == OpType.Concatenate &&
          stmt.Outputs.any (fun o => o.id == outputShapeValue.id)) with
      | some stmt =>
        let p := tryExtractConcatenatedShapeWithUnknowns
          (fun v => tryExtractConstantShapeTop fn v) stmt
        if p.2.2 then some p.1 else none
      | none => none
    let inputSize := drInputSize operandDims boundsL
    let fallbackShape : Shape :=
      let bound0 := operandDims.foldl
        (fun b d => if 0 < d ∧ b < d ∧ d ≤ 1024 then d else b) 0
      let bound1 :=
        if bound0 = 0 ∧ boundsL.length ≠ 0 then
          boundsL.foldl (fun b d => if 0 < d ∧ b < d ∧ d ≤ 1024 then d else b) 0
        else bound0
      let bound := if bound1 = 0 then 128 else bound1
      let staticDims :=
        if outputRank = operandDims.length then
          (List.range outputRank).map (fun i =>
            if i < operandDims.length ∧ 0 < operandDims.getD i 0 then
              operandDims.getD i 0
            else if i < boundsL.length ∧ 0 < boundsL.getD i 0 then boundsL.getD i 0
            else bound)
        else List.replicate outputRank bound
      { operand.shape.Clone with Dimensions := staticDims, DimensionBounds := [] }
    match partialShapeRes with
    | some partialShape =>
      if partialShape.length = outputRank then
        let ps := drPartialScan partialShape 0 1 0 (-1)
        let sd0 := ps.1
        let kp := ps.2.1
        let unknownCount := ps.2.2.1
        let unknownIdx := ps.2.2.2
        let staticDims :=
          if unknownCount = 1 ∧ 0 < inputSize ∧ 0 < kp then
            sd0.set unknownIdx.toNat
              (if 0 < goDiv inputSize kp then goDiv inputSize kp else 1)
          else if 0 < unknownCount then
            sd0.map (fun d => if d = 0 then 128 else d)
          else sd0
        if 0 < inputSize ∧ prodInt staticDims = inputSize then
          { operand.shape.Clone with Dimensions := staticDims, DimensionBounds := [] }
        else fallbackShape
      else fallbackShape
    | none => fallbackShape

/-- `DynamicReshape` (ops.go lines 2785-3186): validations, then a static
`Reshape` to the computed target shape (every rewrite path lowers to
`Reshape`; the dynamic emission at lines 3184-3185 is dead code). -/
def DynamicReshape (fn : Function) (operand outputShape : Value) :
    Function × Except String Value :=
  if fn.Returned then
    (fn, Except.error "cannot add operation after returning")
  else if outputShape.fnId ≠ fn.id then
    (fn, Except.error "operand and outputShape are from different functions")
  else if outputShape.shape.Rank ≠ 1 then
    (fn, Except.error "outputShape must be a 1D tensor")
  else if outputShape.shape.dtype.IsInt = false then
    (fn, Except.error "outputShape must be integer type")
  else Reshape fn operand (dynReshapeTarget fn operand outputShape)

/-! ## Claim theorems for the builder core -/

lemma Reshape_ok {fn : Function} {operand : Value} {shape : Shape} {fn' : Function}
    {v : Value} (h : Reshape fn operand shape = (fn', Except.ok v)) :
    fn'.Statements = fn.Statements ++ [⟨OpType.Reshape, [operand], [v], []⟩] ∧
    v.shape = shape ∧
    ((∀ d ∈ operand.shape.Dimensions, 0 ≤ d) → (∀ d ∈ shape.Dimensions, 0 ≤ d) →
      shape.Size = operand.shape.Size) := by
  unfold Reshape at h
  split at h
  · exact absurd (congrArg Prod.snd h) (by simp)
  · split at h
    · exact absurd (congrArg Prod.snd h) (by simp)
    · dsimp only at h
      split at h
      · exact absurd (congrArg Prod.snd h) (by simp)
      · next hguard =>
        injection h with h1 h2
        injection h2 with h2
        subst h1
        subst h2
        refine ⟨rfl, rfl, ?_⟩
        intro hop hsh
        have hA : operand.shape.Dimensions.any (fun d => decide (d < 0)) = false := by
          simp only [List.any_eq_false, decide_eq_true_eq]
          intro x hx
          exact not_lt.mpr (hop x hx)
        have hB : shape.Dimensions.any (fun d => decide (d < 0)) = false := by
          simp only [List.any_eq_false, decide_eq_true_eq]
          intro x hx
          exact not_lt.mpr (hsh x hx)
        simp only [hA, hB, Bool.or_self, Bool.not_false, Bool.true_and, bne_iff_ne,
          ne_eq, not_not] at hguard
        exact hguard.symm

/-- C2 (amended) — For every `DynamicReshape` call on an operand with fully
known static size `S` that succeeds, the appended statement is a static
`Reshape`, and whenever the emitted target shape has no negative dimension,
the product of its dimensions equals `S`.  (The unamended claim fails when
the extracted shape slips negative entries into the target, since `Reshape`
skips its size check for symbolic dimensions — see the counterexample.) -/
theorem C2_dynamic_reshape_product (fn : Function) (operand outputShape : Value)
    (fn' : Function) (v : Value)
    (h : DynamicReshape fn operand outputShape = (fn', Except.ok v))
    (hstatic : ∀ d ∈ operand.shape.Dimensions, 0 ≤ d) :
    ∃ s : Statement, fn'.Statements = fn.Statements ++ [s] ∧
      s.OpType = OpType.Reshape ∧
      ((∀ d ∈ v.shape.Dimensions, 0 ≤ d) →
        prodInt v.shape.Dimensions = prodInt operand.shape.Dimensions) := by
  unfold DynamicReshape at h
  split at h
  · exact absurd (congrArg Prod.snd h) (by simp)
  · split at h
    · exact absurd (congrArg Prod.snd h) (by simp)
    · split at h
      · exact absurd (congrArg Prod.snd h) (by simp)
      · split at h
        · exact absurd (congrArg Prod.snd h) (by simp)
        · obtain ⟨h1, h2, h3⟩ := Reshape_ok h
          refine ⟨_, h1, rfl, ?_⟩
          intro hv
          have hsz : (dynReshapeTarget fn operand outputShape).Size =
              operand.shape.Size := h3 hstatic (h2 ▸ hv)
          rw [h2]
          exact hsz

/-- The function of the C2 counterexample: a single `Constant` statement
producing the 1-D `i32` shape tensor `[-2, -2, 6]`. -/
def c2fn : Function :=
  ⟨0, "main", none, false,
    [⟨OpType.Constant, [], [⟨1, 0, ⟨DType.i32, [3], []⟩⟩],
      [("value", AttrVal.tensorLit (some [-2, -2, 6]))]⟩], 2⟩

/-- The shape operand of the C2 counterexample (output of the constant). -/
def c2shapeVal : Value := ⟨1, 0, ⟨DType.i32, [3], []⟩⟩

/-- The reshaped operand of the C2 counterexample: static `f32[6]`, size 6. -/
def c2operand : Value := ⟨5, 0, ⟨DType.f32, [6], []⟩⟩

/-- The output value the C2 counterexample run produces. -/
def c2out : Value := ⟨2, 0, ⟨DType.f32, [-2, 1, 6], []⟩⟩

/-- C2 (counterexample) — With the fully static operand `f32[6]` (size 6) and
the extracted shape `[-2, -2, 6]`, `DynamicReshape` lowers to a static
`Reshape` whose emitted target shape is `[-2, 1, 6]`: the product of the
emitted target dimensions is `-12 ≠ 6`, so the claimed product invariant
fails as stated (the fix-up loop of ops.go lines 2942-2957 only repairs one
non-positive entry and `Reshape` skips its size check because the target
contains a negative dimension). -/
theorem C2_counterexample :
    (DynamicReshape c2fn c2operand c2shapeVal).2 = Except.ok c2out ∧
    c2out.shape.Dimensions = [-2, 1, 6] ∧
    (∀ d ∈ c2operand.shape.Dimensions, 0 ≤ d) ∧
    prodInt c2out.shape.Dimensions ≠ prodInt c2operand.shape.Dimensions := by
  refine ⟨rfl, rfl, by decide, by decide⟩

/-- The function of the C2 witness: a `Constant` statement producing the 1-D
`i32` shape tensor `[2, 3]`. -/
def c2wfn : Function :=
  ⟨0, "main", none, false,
    [⟨OpType.Constant, [], [⟨1, 0, ⟨DType.i32, [2], []⟩⟩],
      [("value", AttrVal.tensorLit (some [2, 3]))]⟩], 2⟩

/-- Shape operand of the C2 witness. -/
def c2wshapeVal : Value := ⟨1, 0, ⟨DType.i32, [2], []⟩⟩

/-- Operand of the C2 witness: static `f32[6]`. -/
def c2woperand : Value := ⟨5, 0, ⟨DType.f32, [6], []⟩⟩

/-- Output of the C2 witness run (`Reshape` to `[2, 3]`). -/
def c2wout : Value := ⟨2, 0, ⟨DType.f32, [2, 3], []⟩⟩

/-- Witness for C2's amended theorem at a concrete successful rewrite. -/
theorem C2_witness :
    ∃ s : Statement,
      ((DynamicReshape c2wfn c2woperand c2wshapeVal).1).Statements =
        c2wfn.Statements ++ [s] ∧
      s.OpType = OpType.Reshape ∧
      ((∀ d ∈ c2wout.shape.Dimensions, 0 ≤ d) →
        prodInt c2wout.shape.Dimensions = prodInt c2woperand.shape.Dimensions) :=
  C2_dynamic_reshape_product c2wfn c2woperand c2wshapeVal _ c2wout rfl (by decide)

lemma BroadcastInDim_ok {inferB : Shape → Shape → List Int → Bool} {fn : Function}
    {operand : Value} {target : Shape} {axesMapping : List Int} {fn' : Function}
    {v : Value}
    (h : BroadcastInDim inferB fn operand target axesMapping = (fn', Except.ok v)) :
    fn'.Statements = fn.Statements ++
      [⟨OpType.BroadcastInDim, [operand], [v],
        [("broadcast_dimensions", AttrVal.intList axesMapping)]⟩] ∧
    v.shape = target := by
  unfold BroadcastInDim at h
  split at h
  · exact absurd (congrArg Prod.snd h) (by simp)
  · split at h
    · exact absurd (congrArg Prod.snd h) (by simp)
    · injection h with h1 h2
      injection h2 with h2
      subst h1
      subst h2
      exact ⟨rfl, rfl⟩

lemma map_fill_pos (l : List Int) :
    ∀ d ∈ l.map (fun dim => if 0 < dim then dim else 128), 0 < d := by
  intro d hd
  simp only [List.mem_map] at hd
  obtain ⟨x, _, rfl⟩ := hd
  split
  · assumption
  · norm_num

lemma dynBroadcastDecision_toStatic_pos {fn : Function} {operand outputDimensions : Value}
    {broadcastDimensions : List Int} {target : Shape}
    (h : dynBroadcastDecision fn operand outputDimensions broadcastDimensions =
      DynBroadcastDecision.toStatic target) :
    ∀ d ∈ target.Dimensions, 0 < d := by
  unfold dynBroadcastDecision at h
  dsimp only at h
  split at h
  · next concreteShape hext =>
    split at h
    · next hall =>
      split at h
      · injection h with h'
        subst h'
        intro d hd
        have := List.all_eq_true.mp hall d hd
        simpa using this
      · exact DynBroadcastDecision.noConfusion h
    · exact DynBroadcastDecision.noConfusion h
  · split at h
    · next partialShape hpart =>
      split at h
      · split at h
        · injection h with h'
          subst h'
          exact map_fill_pos partialShape
        · split at h <;> exact DynBroadcastDecision.noConfusion h
      · split at h <;> exact DynBroadcastDecision.noConfusion h
    · split at h <;> exact DynBroadcastDecision.noConfusion h

/-- C1 (amended) — Every successful `DynamicBroadcastInDim` call appends
exactly one statement: either a static `BroadcastInDim` whose target shape is
fully static (every dimension a known strictly positive integer), or a
`DynamicBroadcastInDim` statement.  (The unamended claim's case (b) —
dimensions all `DimUnknown` with positive bounds — does not hold for every
dynamic emission; see the counterexample.) -/
theorem C1_dynamic_broadcast_emission (inferB : Shape → Shape → List Int → Bool)
    (fn : Function) (operand outputDimensions : Value)
    (broadcastDimensions : List Int) (fn' : Function) (v : Value)
    (h : DynamicBroadcastInDim inferB fn operand outputDimensions
      broadcastDimensions = (fn', Except.ok v)) :
    ∃ s : Statement, fn'.Statements = fn.Statements ++ [s] ∧
      ((s.OpType = OpType.BroadcastInDim ∧ ∀ d ∈ v.shape.Dimensions, 0 < d) ∨
        s.OpType = OpType.DynamicBroadcastInDim) := by
  unfold DynamicBroadcastInDim at h
  split at h
  · exact absurd (congrArg Prod.snd h) (by simp)
  · split at h
    · exact absurd (congrArg Prod.snd h) (by simp)
    · split at h
      · exact absurd (congrArg Prod.snd h) (by simp)
      · split at h
        · exact absurd (congrArg Prod.snd h) (by simp)
        · split at h
          · exact absurd (congrArg Prod.snd h) (by simp)
          · split at h
            · next target heq =>
              obtain ⟨h1, h2⟩ := BroadcastInDim_ok h
              refine ⟨_, h1, Or.inl ⟨rfl, ?_⟩⟩
              rw [h2]
              exact dynBroadcastDecision_toStatic_pos heq
            · next outputShape heq =>
              injection h with h1 h2
              injection h2 with h2
              subst h1
              subst h2
              exact ⟨_, rfl, Or.inr rfl⟩

/-- Operand of the C1 counterexample: static `f32[2, 3]`, no unit dimension. -/
def c1operand : Value := ⟨8, 0, ⟨DType.f32, [2, 3], []⟩⟩

/-- Shape operand of the C1 counterexample: a function parameter of type
`i32[2]` (produced by no statement, so extraction fails). -/
def c1outputDims : Value := ⟨7, 0, ⟨DType.i32, [2], []⟩⟩

/-- Function of the C1 counterexample: empty statement list. -/
def c1fn : Function := ⟨0, "main", none, false, [], 9⟩

/-- Output value of the C1 counterexample run. -/
def c1out : Value := ⟨9, 0, ⟨DType.f32, [2, 3], []⟩⟩

/-- C1 (counterexample) — When extraction fails and the static operand
`f32[2, 3]` has the output's rank and no unit dimension (the "no-op" path,
ops.go lines 2701-2704), the successful call appends a
`DynamicBroadcastInDim` statement whose output dimensions are the operand's
`[2, 3]` — not `DimUnknown` — and whose bounds list is empty, so neither
disjunct of the claim holds for that statement. -/
theorem C1_counterexample :
    (DynamicBroadcastInDim (fun _ _ _ => true) c1fn c1operand c1outputDims
      [0, 1]).2 = Except.ok c1out ∧
    ((DynamicBroadcastInDim (fun _ _ _ => true) c1fn c1operand c1outputDims
      [0, 1]).1).Statements =
      c1fn.Statements ++
        [⟨OpType.DynamicBroadcastInDim, [c1operand, c1outputDims], [c1out],
          [("broadcast_dimensions", AttrVal.intList [0, 1])]⟩] ∧
    c1out.shape.Dimensions = [2, 3] ∧
    c1out.shape.DimensionBounds = [] ∧
    ¬ (∀ d ∈ c1out.shape.Dimensions, d = DimUnknown) := by
  refine ⟨rfl, rfl, rfl, rfl, by decide⟩

/-- Witness for C1's amended theorem at the concrete no-op input. -/
theorem C1_witness :
    ∃ s : Statement,
      ((DynamicBroadcastInDim (fun _ _ _ => true) c1fn c1operand c1outputDims
        [0, 1]).1).Statements = c1fn.Statements ++ [s] ∧
      ((s.OpType = OpType.BroadcastInDim ∧ ∀ d ∈ c1out.shape.Dimensions, 0 < d) ∨
        s.OpType = OpType.DynamicBroadcastInDim) :=
  C1_dynamic_broadcast_emission (fun _ _ _ => true) c1fn c1operand c1outputDims
    [0, 1] _ c1out rfl

/-! ### C3 — operand/function membership -/

/-- A trivially succeeding shape inference for the C3/C4 runs. -/
def demoInfer : OpType → Shape → Shape → Option Shape := fun _ s _ => some s

/-- Scalar `f32` shape used in the C3 runs. -/
def c3scalar : Shape := ⟨DType.f32, [], []⟩

/-- `@main` of the C3 counterexample. -/
def c3main : Function := ⟨0, "main", none, false, [], 0⟩

/-- A closure of `@main` (its strict descendant). -/
def c3closure : Function := ⟨1, "closure", some 0, false, [], 0⟩

/-- The builder's function list for the C3 counterexample. -/
def c3fns : List Function := [c3main, c3closure]

/-- A value owned by the closure. -/
def c3a : Value := ⟨10, 1, c3scalar⟩

/-- A value owned by `@main`, the closure's strict ancestor. -/
def c3b : Value := ⟨11, 0, c3scalar⟩

/-- C3 (counterexample) — `@main` is a strict ancestor of the closure, the
operands' innermost function is the closure, and yet `binaryOp` on the
closure rejects the operand owned by `@main`: the claim that an operand from
a strict ancestor is not rejected fails on `Function.binaryOp`
(ops.go lines 63-66 require every operand's function to be exactly `fn`). -/
theorem C3_counterexample :
    isStrictAncestor c3fns c3main.id c3closure.id = true ∧
    c3a.fnId = c3closure.id ∧ c3b.fnId = c3main.id ∧
    c3b.fnId ≠ c3closure.id ∧
    exceptIsOk (Function.binaryOp c3closure demoInfer OpType.Add c3a c3b).2 = false := by
  refine ⟨rfl, rfl, rfl, by decide, rfl⟩

/-- C3 (amended) — For operations constructed through `Function.binaryOp`,
`Concatenate` and `While`, on an open function whose abstracted shape
inference (and, for `Concatenate`, axis adjustment; for `While`, the two
closure-parent checks) succeeds, the operand list is accepted if and only if
every operand belongs to the function being built itself; operands from any
other function — strict ancestors included — are rejected with an error, so
the spec's `innerMostFunction` closure-capture rule is not applied by these
constructors. -/
theorem C3_operand_membership :
    (∀ (infer : OpType → Shape → Shape → Option Shape) (fn : Function)
        (op : OpType) (lhs rhs : Value),
      fn.Returned = false →
      (infer op lhs.shape rhs.shape).isSome = true →
      (exceptIsOk (Function.binaryOp fn infer op lhs rhs).2 = true ↔
        (lhs.fnId = fn.id ∧ rhs.fnId = fn.id))) ∧
    (∀ (fns : List Function) (inferC : List Shape → Int → Option Shape)
        (adjust : Int → Nat → Option Int) (axis : Int)
        (fn : Function) (o0 : Value) (rest : List Value),
      findFunction fns o0.fnId = some fn →
      fn.Returned = false →
      (inferC ((o0 :: rest).map Value.shape) axis).isSome = true →
      (adjust axis o0.shape.Rank).isSome = true →
      (exceptOk (Concatenate fns inferC adjust axis (o0 :: rest)) = true ↔
        ∀ v ∈ o0 :: rest, v.fnId = fn.id)) ∧
    (∀ (fns : List Function)
        (inferW : Function → Function → List Shape → Option (List Shape))
        (condFn bodyFn : Function) (fn : Function) (s0 : Value)
        (rest : List Value),
      findFunction fns s0.fnId = some fn →
      fn.Returned = false →
      condFn.Parent = some fn.id →
      bodyFn.Parent = some fn.id →
      (inferW condFn bodyFn ((s0 :: rest).map Value.shape)).isSome = true →
      (exceptOk (While fns inferW condFn bodyFn (s0 :: rest)) = true ↔
        ∀ v ∈ s0 :: rest, v.fnId = fn.id)) := by
  refine ⟨?_, ?_, ?_⟩
  · intro infer fn op lhs rhs hret hinf
    by_cases hmem : lhs.fnId ≠ fn.id ∨ rhs.fnId ≠ fn.id
    · simp only [Function.binaryOp, hret, Bool.false_eq_true, if_false, if_pos hmem,
        exceptIsOk, Bool.false_eq_true, false_iff]
      tauto
    · push_neg at hmem
      obtain ⟨e1, e2⟩ := hmem
      cases h3 : infer op lhs.shape rhs.shape with
      | none => rw [h3] at hinf; simp at hinf
      | some s =>
        unfold Function.binaryOp
        rw [hret, if_neg (by simp), if_neg (by simp [e1, e2]), h3]
        simp only [exceptIsOk, true_iff]
        exact ⟨e1, e2⟩
  · intro fns inferC adjust axis fn o0 rest hfind hret hinf hadj
    unfold Concatenate
    dsimp only
    rw [hfind]
    dsimp only
    rw [hret, if_neg (by simp)]
    by_cases hmem : (o0 :: rest).any (fun o => o.fnId != fn.id) = true
    · rw [if_pos hmem]
      simp only [List.any_eq_true, bne_iff_ne, ne_eq] at hmem
      obtain ⟨x, hx, hne⟩ := hmem
      simp only [exceptOk, Bool.false_eq_true, false_iff]
      intro hall
      exact hne (hall x hx)
    · rw [if_neg hmem]
      simp only [List.any_eq_true, bne_iff_ne, ne_eq] at hmem
      push_neg at hmem
      cases hi : inferC ((o0 :: rest).map Value.shape) axis with
      | none => rw [hi] at hinf; simp at hinf
      | some s =>
        dsimp only
        cases ha : adjust axis o0.shape.Rank with
        | none => rw [ha] at hadj; simp at hadj
        | some a =>
          simp only [exceptOk, true_iff]
          exact hmem
  · intro fns inferW condFn bodyFn fn s0 rest hfind hret hcond hbody hinf
    unfold While
    dsimp only
    rw [hfind]
    dsimp only
    rw [hret, if_neg (by simp)]
    by_cases hmem : (s0 :: rest).any (fun s => s.fnId != fn.id) = true
    · rw [if_pos hmem]
      simp only [List.any_eq_true, bne_iff_ne, ne_eq] at hmem
      obtain ⟨x, hx, hne⟩ := hmem
      simp only [exceptOk, Bool.false_eq_true, false_iff]
      intro hall
      exact hne (hall x hx)
    · rw [if_neg hmem, if_neg (by simp [hcond]), if_neg (by simp [hbody])]
      simp only [List.any_eq_true, bne_iff_ne, ne_eq] at hmem
      push_neg at hmem
      cases hi : inferW condFn bodyFn ((s0 :: rest).map Value.shape) with
      | none => rw [hi] at hinf; simp at hinf
      | some ss =>
        simp only [exceptOk, true_iff]
        exact hmem

/-- A shape inference for the C3 `Concatenate` witness: echo the first
operand's shape. -/
def demoInferC : List Shape → Int → Option Shape :=
  fun ss _ => some (ss.getD 0 ⟨DType.f32, [], []⟩)

/-- An axis adjustment for the C3 `Concatenate` witness: identity. -/
def demoAdjust : Int → Nat → Option Int := fun a _ => some a

/-- A `While` shape inference for the C3 witness: echo the state shapes. -/
def demoInferW : Function → Function → List Shape → Option (List Shape) :=
  fun _ _ ss => some ss

/-- Witness for C3's amended theorem at concrete calls: `binaryOp` on the
closure with both operands owned by it, and `Concatenate`/`While` on `@main`
with the operand `c3b` owned by `@main` (the closure is `@main`'s child, so
it serves as both regions of the `While`). -/
theorem C3_witness :
    (exceptIsOk (Function.binaryOp c3closure demoInfer OpType.Add c3a c3a).2 = true ↔
      (c3a.fnId = c3closure.id ∧ c3a.fnId = c3closure.id)) ∧
    (exceptOk (Concatenate c3fns demoInferC demoAdjust 0 [c3b]) = true ↔
      ∀ v ∈ [c3b], v.fnId = c3main.id) ∧
    (exceptOk (While c3fns demoInferW c3closure c3closure [c3b]) = true ↔
      ∀ v ∈ [c3b], v.fnId = c3main.id) :=
  ⟨C3_operand_membership.1 demoInfer c3closure OpType.Add c3a c3a rfl rfl,
   C3_operand_membership.2.1 c3fns demoInferC demoAdjust 0 c3main c3b [] rfl rfl
     rfl rfl,
   C3_operand_membership.2.2 c3fns demoInferW c3closure c3closure c3main c3b []
     rfl rfl rfl rfl rfl⟩

/-! ### C4 — builder errors leave the statement list unchanged -/

/-- C4 — When `binaryOp` or `DynamicBroadcastInDim` fails with a builder
error (closed function, cross-function operand, failed validation or failed
shape inference), the error is returned synchronously and the owning function
— its statement list and its value counter — is exactly as before the call. -/
theorem C4_errors_leave_function_unchanged :
    (∀ (infer : OpType → Shape → Shape → Option Shape) (fn : Function) (op : OpType)
        (lhs rhs : Value) (fn2 : Function) (e : String),
      Function.binaryOp fn infer op lhs rhs = (fn2, Except.error e) → fn2 = fn) ∧
    (∀ (inferB : Shape → Shape → List Int → Bool) (fn : Function)
        (operand outputDimensions : Value) (broadcastDimensions : List Int)
        (fn2 : Function) (e : String),
      DynamicBroadcastInDim inferB fn operand outputDimensions broadcastDimensions =
        (fn2, Except.error e) → fn2 = fn) := by
  constructor
  · intro infer fn op lhs rhs fn2 e h
    unfold Function.binaryOp at h
    split at h
    · exact (congrArg Prod.fst h).symm
    · split at h
      · exact (congrArg Prod.fst h).symm
      · split at h
        · exact (congrArg Prod.fst h).symm
        · exact absurd (congrArg Prod.snd h) (by simp)
  · intro inferB fn operand outputDimensions broadcastDimensions fn2 e h
    unfold DynamicBroadcastInDim at h
    split at h
    · exact (congrArg Prod.fst h).symm
    · split at h
      · exact (congrArg Prod.fst h).symm
      · split at h
        · exact (congrArg Prod.fst h).symm
        · split at h
          · exact (congrArg Prod.fst h).symm
          · split at h
            · exact (congrArg Prod.fst h).symm
            · split at h
              · unfold BroadcastInDim at h
                split at h
                · exact (congrArg Prod.fst h).symm
                · split at h
                  · exact (congrArg Prod.fst h).symm
                  · exact absurd (congrArg Prod.snd h) (by simp)
              · exact absurd (congrArg Prod.snd h) (by simp)

/-- A closed (returned) function, for the C4 witness. -/
def c4fnReturned : Function := ⟨0, "f", none, true, [], 0⟩

/-- A rank-2 (hence invalid) shape operand for the C4 witness. -/
def c4badDims : Value := ⟨3, 0, ⟨DType.i32, [2, 2], []⟩⟩

/-- Witness for C4 at concrete failing calls: an operation after `Return`,
and a `DynamicBroadcastInDim` whose shape operand is not 1-D. -/
theorem C4_witness :
    (Function.binaryOp c4fnReturned demoInfer OpType.Add c3b c3b).1 = c4fnReturned ∧
    (DynamicBroadcastInDim (fun _ _ _ => true) c1fn c1operand c4badDims [0, 1]).1 =
      c1fn :=
  ⟨C4_errors_leave_function_unchanged.1 demoInfer c4fnReturned OpType.Add c3b c3b
      _ _ rfl,
   C4_errors_leave_function_unchanged.2 (fun _ _ _ => true) c1fn c1operand c4badDims
      [0, 1] _ _ rfl⟩

/-! ### C6 — `Divide` constant folding -/

/-- Modelled from the spec's words, for comparison only (claim C6): "Divide
(element-wise or scalar broadcast; integer division only, and only when
divisor ≠ 0)". -/
def divideSpec (lhs rhs : List Int) : Option (List Int) :=
  if lhs.length = rhs.length then
    if rhs.any (fun d => decide (d = 0)) then none
    else some (List.zipWith goDiv lhs rhs)
  else if rhs.length = 1 then
    if rhs.getD 0 0 = 0 then none
    else some (lhs.map (fun x => goDiv x (rhs.getD 0 0)))
  else if lhs.length = 1 then
    if rhs.any (fun d => decide (d = 0)) then none
    else some (rhs.map (fun x => goDiv (lhs.getD 0 0) x))
  else none

/-- A `Divide` statement whose operands extract to `[4, 6]` and `[2, 3]`. -/
def c6stmt : Statement :=
  ⟨OpType.Divide, [⟨1, 0, ⟨DType.i32, [2], []⟩⟩, ⟨2, 0, ⟨DType.i32, [2], []⟩⟩],
    [⟨3, 0, ⟨DType.i32, [2], []⟩⟩], []⟩

/-- Extraction results for the C6 counterexample. -/
def c6extract : Value → Option (List Int) :=
  fun v => if v.id = 1 then some [4, 6] else some [2, 3]

/-- C6 (counterexample) — Both operands extract to integer vectors of length
2, and the spec's element-wise semantics yields `[2, 2]`; but the divide
extractor returns "not extractable" for any non-scalar operand (ops.go lines
721-723 require both extractions to have length 1), so it does not evaluate
element-wise or broadcast division as claimed. -/
theorem C6_counterexample :
    tryExtractDivideConstant c6extract c6stmt = none ∧
    divideSpec [4, 6] [2, 3] = some [2, 2] := by
  refine ⟨rfl, ?_⟩
  decide

/-- C6 (amended) — The divide extractor evaluates only scalar ÷ scalar: given
the two operands' extractions, it returns the truncated quotient exactly when
both have length 1 and the divisor is nonzero, and "not extractable"
otherwise — in particular a zero divisor never panics, it yields `none`. -/
theorem C6_divide_scalar_only (extract : Value → Option (List Int))
    (stmt : Statement) (lhs rhs : Value) (lv rv : List Int)
    (h1 : stmt.Inputs = [lhs, rhs]) (h2 : extract lhs = some lv)
    (h3 : extract rhs = some rv) :
    tryExtractDivideConstant extract stmt =
      (if lv.length = 1 ∧ rv.length = 1 ∧ rv.getD 0 0 ≠ 0 then
        some [goDiv (lv.getD 0 0) (rv.getD 0 0)]
      else none) := by
  unfold tryExtractDivideConstant
  rw [h1]
  dsimp only
  rw [h2, h3]
  dsimp only
  split_ifs with ha hb hc hd <;> try rfl
  · exact absurd hb (by tauto)
  · exact absurd hd (by tauto)
  · exact absurd ha (by tauto)

/-- Scalar-division statement and extraction for the C6 witness. -/
def c6wstmt : Statement :=
  ⟨OpType.Divide, [⟨1, 0, ⟨DType.i32, [], []⟩⟩, ⟨2, 0, ⟨DType.i32, [], []⟩⟩],
    [⟨3, 0, ⟨DType.i32, [], []⟩⟩], []⟩

/-- Extraction results for the C6 witness: scalars 7 and 2. -/
def c6wextract : Value → Option (List Int) :=
  fun v => if v.id = 1 then some [7] else some [2]

/-- Witness for C6's amended theorem at the scalar division 7 ÷ 2. -/
theorem C6_witness :
    tryExtractDivideConstant c6wextract c6wstmt =
      (if ([7] : List Int).length = 1 ∧ ([2] : List Int).length = 1 ∧
          ([2] : List Int).getD 0 0 ≠ 0 then
        some [goDiv (([7] : List Int).getD 0 0) (([2] : List Int).getD 0 0)]
      else none) :=
  C6_divide_scalar_only c6wextract c6wstmt ⟨1, 0, ⟨DType.i32, [], []⟩⟩
    ⟨2, 0, ⟨DType.i32, [], []⟩⟩ [7] [2] rfl rfl rfl

/-! ### C7 — `GetDimensionSize` on a dynamic dimension -/

/-- C7 — The `GetDimensionSize` extractor returns "not extractable" whenever
the selected operand dimension is dynamic (negative sentinel), and any
successful extraction is a vector of nonnegative entries — it never
materialises `-1` from the dimension lookup. -/
theorem C7_get_dimension_size_dynamic :
    (∀ (stmt : Statement) (operand : Value) (dimIndex : Int),
      stmt.Inputs = [operand] →
      lookupAttr stmt "dimension" = some (AttrVal.int dimIndex) →
      0 ≤ dimIndex → dimIndex < (operand.shape.Rank : Int) →
      operand.shape.Dimensions.getD dimIndex.toNat 0 < 0 →
      tryExtractGetDimensionSize stmt = none) ∧
    (∀ (stmt : Statement) (l : List Int),
      tryExtractGetDimensionSize stmt = some l → ∀ d ∈ l, 0 ≤ d) := by
  constructor
  · intro stmt operand dimIndex h1 h2 hge hlt hneg
    unfold tryExtractGetDimensionSize
    rw [h1]
    dsimp only
    rw [h2]
    dsimp only
    rw [if_neg (by omega)]
    rw [if_pos hneg]
  · intro stmt l h
    unfold tryExtractGetDimensionSize at h
    split at h
    · split at h
      · split at h
        · exact absurd h (by simp)
        · dsimp only at h
          split at h
          · exact absurd h (by simp)
          · rename_i hnn
            obtain rfl := (Option.some_inj.mp h)
            intro d hd
            simp only [List.mem_singleton] at hd
            subst hd
            omega
      · exact absurd h (by simp)
    · exact absurd h (by simp)

/-- A `GetDimensionSize` statement selecting the dynamic dimension of a
`[-1, 4]`-shaped operand, for the C7 witness. -/
def c7stmt : Statement :=
  ⟨OpType.GetDimensionSize, [⟨1, 0, ⟨DType.f32, [-1, 4], []⟩⟩],
    [⟨2, 0, ⟨DType.i32, [], []⟩⟩], [("dimension", AttrVal.int 0)]⟩

/-- A `GetDimensionSize` statement selecting the static dimension 1 of the
same operand, for the C7 witness's second conjunct. -/
def c7wstmt : Statement :=
  ⟨OpType.GetDimensionSize, [⟨1, 0, ⟨DType.f32, [-1, 4], []⟩⟩],
    [⟨2, 0, ⟨DType.i32, [], []⟩⟩], [("dimension", AttrVal.int 1)]⟩

/-- Witness for C7: the dynamic dimension 0 of a `[-1, 4]` operand is not
extractable, and the extraction of the static dimension 1 is nonnegative. -/
theorem C7_witness :
    tryExtractGetDimensionSize c7stmt = none ∧ ∀ d ∈ [(4 : Int)], 0 ≤ d :=
  ⟨C7_get_dimension_size_dynamic.1 c7stmt ⟨1, 0, ⟨DType.f32, [-1, 4], []⟩⟩ 0
      rfl rfl (by decide) (by decide) (by decide),
   C7_get_dimension_size_dynamic.2 c7wstmt [4] rfl⟩

end GoXla
